import Mathlib

/-
  Verification of the git-cuttle workspace manager against its specification.

  The Python sources under src/git_cuttle are shallowly embedded: pure
  functions become Lean functions, stateful code becomes explicit state
  passing, thunks that may raise become `Option String` outcomes (`none` =
  normal return, `some e` = raised exception rendered as the message `e`),
  and fallible operations return `Except String`.  Filesystem and
  subprocess effects (path resolution, `git` queries, timestamp parsing,
  clock readings) are passed in as explicit oracle arguments, mirroring how
  the Python code receives them through injected callables or subprocess
  calls.
-/

/-! ## Transaction executor (src/git_cuttle/transaction.py) -/

/-- Model of `TransactionStep`.  The `apply` and `rollback` thunks are
modelled by their outcome: `none` means the call returns normally, `some e`
means it raises an exception carrying message `e`. -/
structure TxnStep where
  name : String
  apply : Option String
  rollback : Option String
  recovery_commands : List String
deriving DecidableEq, Repr

/-- Model of `RollbackFailure` (transaction.py lines 18-22). -/
structure RollbackFailure where
  step_name : String
  error : String
  recovery_commands : List String
deriving DecidableEq, Repr

/-- Observable invocation events of a transaction run: each call of a step
thunk is recorded, so the trace witnesses order and multiplicity of the
`apply` and `rollback` invocations. -/
inductive TxnEvent where
  | applyCalled (name : String)
  | rollbackCalled (name : String)
deriving DecidableEq, Repr

/-- Result of `Transaction.run`: normal return, `TransactionExecutionError`
(apply failed, every rollback succeeded) or `TransactionRollbackError`
(apply failed and at least one rollback failed), with the same payload
fields as the Python dataclasses. -/
inductive TxnOutcome where
  | ok
  | executionError (txn_id failed_step_name cause : String)
      (rolled_back_steps : List String)
  | rollbackError (txn_id failed_step_name cause : String)
      (rollback_failures : List RollbackFailure) (rolled_back_steps : List String)
deriving DecidableEq, Repr

/-- Model of the rollback loop of `Transaction.run` (transaction.py lines
113-124).  The argument holds the completed steps most-recently-applied
first, i.e. already in `reversed(completed_steps)` order.  Returns the
rollback invocation events, the names of the successfully rolled back steps
(`rolled_back_step_names`, in invocation order) and the recorded
`RollbackFailure`s (in invocation order). -/
def rollbackCompleted : List TxnStep → List TxnEvent × List String × List RollbackFailure
  | [] => ([], [], [])
  | step :: rest =>
    let r := rollbackCompleted rest
    match step.rollback with
    | none => (TxnEvent.rollbackCalled step.name :: r.1, step.name :: r.2.1, r.2.2)
    | some e =>
      (TxnEvent.rollbackCalled step.name :: r.1, r.2.1,
        RollbackFailure.mk step.name e step.recovery_commands :: r.2.2)

/-- Model of the main loop of `Transaction.run` (transaction.py lines
102-141).  `completed` holds the successfully applied steps
most-recently-applied first (so it equals `reversed(completed_steps)` of
the Python code); `trace` accumulates invocation events in order. -/
def runStepsAux (txn_id : String) :
    List TxnStep → List TxnStep → List TxnEvent → List TxnEvent × TxnOutcome
  | [], _completed, trace => (trace, TxnOutcome.ok)
  | step :: rest, completed, trace =>
    match step.apply with
    | none =>
      runStepsAux txn_id rest (step :: completed) (trace ++ [TxnEvent.applyCalled step.name])
    | some cause =>
      let r := rollbackCompleted completed
      let trace2 := trace ++ [TxnEvent.applyCalled step.name] ++ r.1
      match r.2.2 with
      | [] => (trace2, TxnOutcome.executionError txn_id step.name cause r.2.1)
      | failures => (trace2, TxnOutcome.rollbackError txn_id step.name cause failures r.2.1)

/-- Model of `Transaction.run` on a transaction whose `_steps` list is
`steps`: returns the full invocation trace and the outcome. -/
def txnRun (txn_id : String) (steps : List TxnStep) : List TxnEvent × TxnOutcome :=
  runStepsAux txn_id steps [] []

/-- Model of the inner loop of `TransactionRollbackError.recovery_commands`
(transaction.py lines 47-56): threads the `seen` set (modelled as a list,
membership is its only use) and the accumulated `commands` list through one
failure's `recovery_commands`. -/
def addCommands : List String → List String → List String → List String × List String
  | seen, commands, [] => (seen, commands)
  | seen, commands, c :: cs =>
    if c ∈ seen then addCommands seen commands cs
    else addCommands (c :: seen) (commands ++ [c]) cs

/-- Model of the outer loop of `TransactionRollbackError.recovery_commands`. -/
def recoveryCommandsLoop : List String → List String → List RollbackFailure → List String
  | _seen, commands, [] => commands
  | seen, commands, f :: fs =>
    let r := addCommands seen commands f.recovery_commands
    recoveryCommandsLoop r.1 r.2 fs

/-- Model of `TransactionRollbackError.recovery_commands`. -/
def recoveryCommands (failures : List RollbackFailure) : List String :=
  recoveryCommandsLoop [] [] failures

/-- Specification-side description of `recovery_commands`: the concatenated
recovery commands of all failures with duplicates removed, keeping the
first occurrence of each command. -/
def dedupFirst (l : List String) : List String :=
  l.foldl (fun acc c => if c ∈ acc then acc else acc ++ [c]) []

/-! ## Delete and prune (src/git_cuttle/delete.py, src/git_cuttle/prune.py) -/

/-- The mutating actions of the live (non-dry-run) delete path, in program
order. -/
inductive DeleteAction where
  | removeWorktree
  | deleteBranch
  | untrackWorkspace
deriving DecidableEq, Repr

/-- State touched by the live tail of `delete_workspace`: whether the
workspace worktree directory exists, whether the local branch ref exists,
and whether the workspace is still recorded in the metadata file. -/
structure DeleteState where
  worktreeExists : Bool
  branchExists : Bool
  trackedInMetadata : Bool
deriving DecidableEq, Repr

/-- Model of the live (non-dry-run) tail of `delete_workspace` (delete.py
lines 97-111): remove the worktree if its path exists, delete the local
branch, then write the metadata with the workspace popped.  `failAt`
injects a failure (a raised `AppError`) into the corresponding action; the
returned Bool is true when the operation completed without raising.  The
three actions are performed sequentially; `delete_workspace` constructs no
`Transaction` and registers no rollback. -/
def deleteWorkspaceLive (failAt : Option DeleteAction) (st : DeleteState) :
    DeleteState × Bool :=
  if st.worktreeExists ∧ failAt = some DeleteAction.removeWorktree then
    (st, false)
  else
    let st1 : DeleteState := ⟨false, st.branchExists, st.trackedInMetadata⟩
    if failAt = some DeleteAction.deleteBranch then
      (st1, false)
    else
      let st2 : DeleteState := ⟨false, false, st1.trackedInMetadata⟩
      if failAt = some DeleteAction.untrackWorkspace then
        (st2, false)
      else
        (⟨false, false, false⟩, true)

/-- One unblocked prune decision together with injected failures for its
two git mutations (prune.py lines 110-126). -/
structure PruneItem where
  branch : String
  worktreeExists : Bool
  localBranchExists : Bool
  removeWorktreeFails : Bool
  deleteBranchFails : Bool
deriving DecidableEq, Repr

/-- Git mutations performed by the live prune loop. -/
inductive PruneEffect where
  | removedWorktree (branch : String)
  | deletedBranch (branch : String)
deriving DecidableEq, Repr

/-- Model of the live loop of `prune_workspaces` over its unblocked
decisions (prune.py lines 110-126): per branch, remove the worktree if it
exists, then delete the local branch if it exists; a failing action raises
immediately, ending the loop.  Returns the applied effects in order and
whether the loop completed without raising. -/
def pruneLiveLoop : List PruneItem → List PruneEffect × Bool
  | [] => ([], true)
  | item :: rest =>
    if item.worktreeExists ∧ item.removeWorktreeFails then ([], false)
    else
      let effects1 :=
        if item.worktreeExists then [PruneEffect.removedWorktree item.branch] else []
      if item.localBranchExists ∧ item.deleteBranchFails then (effects1, false)
      else
        let effects2 := effects1 ++
          (if item.localBranchExists then [PruneEffect.deletedBranch item.branch] else [])
        let r := pruneLiveLoop rest
        (effects2 ++ r.1, r.2)

/-- Model of the live tail of `prune_workspaces` (prune.py lines 109-138):
run the loop over the unblocked decisions; only when the loop completes
without raising and at least one branch was pruned is the reduced
workspaces map persisted.  Returns the applied effects, whether the
metadata write happened, and whether the command completed without
raising. -/
def pruneWorkspacesLive (items : List PruneItem) : List PruneEffect × Bool × Bool :=
  let r := pruneLiveLoop items
  if r.2 then (r.1, !items.isEmpty, true) else (r.1, false, false)

/-- Effects of one prune decision when none of its actions fail. -/
def pruneItemEffects (i : PruneItem) : List PruneEffect :=
  (if i.worktreeExists then [PruneEffect.removedWorktree i.branch] else [])
    ++ (if i.localBranchExists then [PruneEffect.deletedBranch i.branch] else [])

/-! ## Atomic metadata write (src/git_cuttle/metadata_manager.py, lines 113-147) -/

/-- The individual operations of `_atomic_write_text`, in program order. -/
inductive WriteOp where
  | createTempFile
  | writeTempFile
  | fsyncTempFile
  | renameOverTarget
  | fsyncParentDir
deriving DecidableEq, Repr

/-- Filesystem slice touched by `_atomic_write_text`: the target path's
content and the invocation's temporary file content (`none` = absent). -/
structure AtomicFs where
  target : Option String
  temp : Option String
deriving DecidableEq, Repr

/-- Model of `_atomic_write_text` (metadata_manager.py lines 113-135) with
an injected failing operation (`none` = every operation succeeds).  On an
exception after the temp file was created, the except-branch runs
`temp_path.unlink(missing_ok=True)`; after a successful `os.replace` the
temp path no longer exists, so a directory-fsync failure deletes nothing
and the newly renamed value stays in place. -/
def atomicWriteText (failAt : Option WriteOp) (content : String) (fs : AtomicFs) :
    AtomicFs × Bool :=
  if failAt = some WriteOp.createTempFile then
    (fs, false)
  else if failAt = some WriteOp.writeTempFile ∨ failAt = some WriteOp.fsyncTempFile
      ∨ failAt = some WriteOp.renameOverTarget then
    (⟨fs.target, none⟩, false)
  else if failAt = some WriteOp.fsyncParentDir then
    (⟨some content, none⟩, false)
  else
    (⟨some content, none⟩, true)

/-! ## Metadata store (src/git_cuttle/metadata_manager.py) -/

/-- JSON documents as produced by `json.loads` and consumed by
`json.dumps`.  Numbers are restricted to integers because every number the
metadata schema reads or writes is a Python `int`.  Objects are
insertion-ordered key-value lists; objects returned by `json.loads` have
unique keys. -/
inductive Json where
  | null
  | bool (b : Bool)
  | num (n : Int)
  | str (s : String)
  | arr (elems : List Json)
  | obj (fields : List (String × Json))
deriving Repr

/-- Model of `WorkspaceKind` (the literal type with the two values
"standard" and "octopus"). -/
inductive WorkspaceKind where
  | standard
  | octopus
deriving DecidableEq, Repr

/-- The string a `WorkspaceKind` serializes to. -/
def WorkspaceKind.toStr : WorkspaceKind → String
  | standard => "standard"
  | octopus => "octopus"

/-- Model of `WorkspaceMetadata`.  `Path` fields are modelled by the string
`str(path)` renders to; `Path(str(p))` equals `p`, so the string is a
faithful identity for the path value. -/
structure WorkspaceMetadata where
  branch : String
  worktree_path : String
  tracked_remote : Option String
  kind : WorkspaceKind
  base_ref : String
  octopus_parents : List String
  created_at : String
  updated_at : String
deriving DecidableEq, Repr

/-- Model of `RepoMetadata`; the `workspaces` dict is an insertion-ordered
association list. -/
structure RepoMetadata where
  git_dir : String
  repo_root : String
  default_remote : Option String
  tracked_at : String
  updated_at : String
  workspaces : List (String × WorkspaceMetadata)
deriving DecidableEq, Repr

/-- Model of `WorkspacesMetadata`. -/
structure WorkspacesMetadata where
  version : Int
  repos : List (String × RepoMetadata)
deriving DecidableEq, Repr

/-- `SCHEMA_VERSION` from metadata_manager.py. -/
def SCHEMA_VERSION : Int := 1

/-- Python `dict.get` on an insertion-ordered association list. -/
def lookupKey {α : Type} : List (String × α) → String → Option α
  | [], _ => none
  | (k, v) :: rest, key => if k = key then some v else lookupKey rest key

/-- Python dict assignment `d[key] = v`: updates an existing key in place,
keeping its position, or appends a new binding. -/
def setKey {α : Type} : List (String × α) → String → α → List (String × α)
  | [], key, v => [(key, v)]
  | (k, w) :: rest, key, v =>
    if k = key then (k, v) :: rest else (k, w) :: setKey rest key v

/-- Python `dict.get` result where a missing key behaves like JSON null.
In `_parse_workspaces_metadata` every `.get` result is either checked with
`isinstance`/set membership (where `None` and JSON null fail identically)
or allows both `None` and null (the optional remote fields), so conflating
the two is outcome-preserving. -/
def getField (fields : List (String × Json)) (key : String) : Json :=
  match lookupKey fields key with
  | some j => j
  | none => Json.null

/-- Model of `_expect_json_object` (string-typed keys hold by
representation). -/
def expectJsonObject (raw : Json) (context : String) : Except String (List (String × Json)) :=
  match raw with
  | Json.obj fields => Except.ok fields
  | _ => Except.error (context ++ " must be an object")

/-- Conversion used when serializing the optional remote fields. -/
def jsonOfOptStr : Option String → Json
  | none => Json.null
  | some s => Json.str s

/-- Model of the workspace part of `_serialize_workspaces_metadata`
(metadata_manager.py lines 308-319). -/
def serializeWorkspace (w : WorkspaceMetadata) : Json :=
  Json.obj [("branch", Json.str w.branch),
    ("worktree_path", Json.str w.worktree_path),
    ("tracked_remote", jsonOfOptStr w.tracked_remote),
    ("kind", Json.str w.kind.toStr),
    ("base_ref", Json.str w.base_ref),
    ("octopus_parents", Json.arr (w.octopus_parents.map Json.str)),
    ("created_at", Json.str w.created_at),
    ("updated_at", Json.str w.updated_at)]

/-- Model of the repo part of `_serialize_workspaces_metadata`
(metadata_manager.py lines 321-328). -/
def serializeRepo (r : RepoMetadata) : Json :=
  Json.obj [("git_dir", Json.str r.git_dir),
    ("repo_root", Json.str r.repo_root),
    ("default_remote", jsonOfOptStr r.default_remote),
    ("tracked_at", Json.str r.tracked_at),
    ("updated_at", Json.str r.updated_at),
    ("workspaces", Json.obj (r.workspaces.map (fun kv => (kv.1, serializeWorkspace kv.2))))]

/-- Model of `_serialize_workspaces_metadata`. -/
def serializeWorkspacesMetadata (m : WorkspacesMetadata) : Json :=
  Json.obj [("version", Json.num m.version),
    ("repos", Json.obj (m.repos.map (fun kv => (kv.1, serializeRepo kv.2))))]

/-- Error-propagating map, modelling a Python for-loop that parses each
entry and raises on the first bad one. -/
def mapExcept {α β : Type} (f : α → Except String β) : List α → Except String (List β)
  | [] => Except.ok []
  | x :: xs =>
    match f x with
    | Except.error e => Except.error e
    | Except.ok y =>
      match mapExcept f xs with
      | Except.error e => Except.error e
      | Except.ok ys => Except.ok (y :: ys)

/-- Model of the string-element check in the octopus_parents loop of
`_parse_workspaces_metadata`. -/
def parseStrListElem (raw : Json) : Except String String :=
  match raw with
  | Json.str s => Except.ok s
  | _ => Except.error "workspace octopus_parents must be a list of strings"

/-- Model of the per-workspace part of `_parse_workspaces_metadata`
(metadata_manager.py lines 168-219), with the checks in source order. -/
def parseWorkspace (raw : Json) : Except String WorkspaceMetadata :=
  match expectJsonObject raw "workspace records" with
  | Except.error e => Except.error e
  | Except.ok fields =>
    match (match getField fields "octopus_parents" with
           | Json.arr elems => mapExcept parseStrListElem elems
           | _ => Except.error "workspace octopus_parents must be a list of strings") with
    | Except.error e => Except.error e
    | Except.ok octopus_parents =>
      match (match getField fields "kind" with
             | Json.str "standard" => Except.ok WorkspaceKind.standard
             | Json.str "octopus" => Except.ok WorkspaceKind.octopus
             | _ => Except.error "workspace kind must be standard or octopus") with
      | Except.error e => Except.error e
      | Except.ok kind =>
        match (match getField fields "tracked_remote" with
               | Json.null => Except.ok none
               | Json.str s => Except.ok (some s)
               | _ => Except.error "workspace tracked_remote must be a string or null") with
        | Except.error e => Except.error e
        | Except.ok tracked_remote =>
          match getField fields "branch" with
          | Json.str branch =>
            match getField fields "worktree_path" with
            | Json.str worktree_path =>
              match getField fields "base_ref" with
              | Json.str base_ref =>
                match getField fields "created_at" with
                | Json.str created_at =>
                  match getField fields "updated_at" with
                  | Json.str updated_at =>
                    Except.ok ⟨branch, worktree_path, tracked_remote, kind,
                      base_ref, octopus_parents, created_at, updated_at⟩
                  | _ => Except.error "workspace updated_at must be a string"
                | _ => Except.error "workspace created_at must be a string"
              | _ => Except.error "workspace base_ref must be a string"
            | _ => Except.error "workspace worktree_path must be a string"
          | _ => Except.error "workspace branch must be a string"

/-- One `workspace_key, workspace_raw` entry of the workspaces loop. -/
def parseWorkspaceEntry (kv : String × Json) : Except String (String × WorkspaceMetadata) :=
  match parseWorkspace kv.2 with
  | Except.error e => Except.error e
  | Except.ok w => Except.ok (kv.1, w)

/-- Model of the per-repo part of `_parse_workspaces_metadata`
(metadata_manager.py lines 161-246).  The Python loop builds the
workspaces dict by iterated assignment over `.items()`; with the unique
keys `json.loads` guarantees this equals `mapM` over the field list. -/
def parseRepo (raw : Json) : Except String RepoMetadata :=
  match expectJsonObject raw "repo records" with
  | Except.error e => Except.error e
  | Except.ok fields =>
    match expectJsonObject (getField fields "workspaces") "repo workspaces" with
    | Except.error e => Except.error e
    | Except.ok workspacesFields =>
      match mapExcept parseWorkspaceEntry workspacesFields with
      | Except.error e => Except.error e
      | Except.ok workspaces =>
        match (match getField fields "default_remote" with
               | Json.null => Except.ok none
               | Json.str s => Except.ok (some s)
               | _ => Except.error "repo default_remote must be a string or null") with
        | Except.error e => Except.error e
        | Except.ok default_remote =>
          match getField fields "git_dir" with
          | Json.str git_dir =>
            match getField fields "repo_root" with
            | Json.str repo_root =>
              match getField fields "tracked_at" with
              | Json.str tracked_at =>
                match getField fields "updated_at" with
                | Json.str updated_at =>
                  Except.ok ⟨git_dir, repo_root, default_remote,
                    tracked_at, updated_at, workspaces⟩
                | _ => Except.error "repo updated_at must be a string"
              | _ => Except.error "repo tracked_at must be a string"
            | _ => Except.error "repo repo_root must be a string"
          | _ => Except.error "repo git_dir must be a string"

/-- One `repo_key, repo_raw` entry of the repos loop. -/
def parseRepoEntry (kv : String × Json) : Except String (String × RepoMetadata) :=
  match parseRepo kv.2 with
  | Except.error e => Except.error e
  | Except.ok r => Except.ok (kv.1, r)

/-- Model of `_parse_workspaces_metadata` (metadata_manager.py lines
150-248). -/
def parseWorkspacesMetadata (raw : Json) : Except String WorkspacesMetadata :=
  match expectJsonObject raw "metadata file" with
  | Except.error e => Except.error e
  | Except.ok root =>
    match getField root "version" with
    | Json.num version =>
      match expectJsonObject (getField root "repos") "metadata repos" with
      | Except.error e => Except.error e
      | Except.ok reposFields =>
        match mapExcept parseRepoEntry reposFields with
        | Except.error e => Except.error e
        | Except.ok repos => Except.ok ⟨version, repos⟩
    | _ => Except.error "metadata version must be an integer"

/-- POSIX `Path.is_absolute`: the path string starts with a slash. -/
def isAbsolutePath (p : String) : Bool :=
  match p.data with
  | [] => false
  | c :: _ => c == '/'

/-- Pairwise distinctness, modelling the `seen_worktree_paths` set check. -/
def allDistinct : List String → Bool
  | [] => true
  | x :: xs => (!xs.contains x) && allDistinct xs

/-- Model of the per-workspace checks of `_validate_workspaces_metadata`
(metadata_manager.py lines 353-366); `isTs` is the timestamp oracle
standing for a successful `datetime.fromisoformat` call. -/
def validWorkspaceEntry (isTs : String → Bool) (kv : String × WorkspaceMetadata) : Bool :=
  (kv.1 == kv.2.branch)
    && isAbsolutePath kv.2.worktree_path
    && isTs kv.2.created_at
    && isTs kv.2.updated_at
    && (match kv.2.kind with
        | WorkspaceKind.standard => kv.2.octopus_parents.isEmpty
        | WorkspaceKind.octopus => decide (2 ≤ kv.2.octopus_parents.length))

/-- Model of the per-repo checks of `_validate_workspaces_metadata`
(metadata_manager.py lines 339-366); `resolve` is the oracle standing for
`Path.resolve(strict=False)` on the surrounding filesystem. -/
def validRepoEntry (resolve : String → String) (isTs : String → Bool)
    (kv : String × RepoMetadata) : Bool :=
  isAbsolutePath kv.2.git_dir
    && (kv.1 == resolve kv.2.git_dir)
    && (kv.2.git_dir == resolve kv.2.git_dir)
    && isAbsolutePath kv.2.repo_root
    && isTs kv.2.tracked_at
    && isTs kv.2.updated_at
    && allDistinct (kv.2.workspaces.map (fun wv => wv.2.worktree_path))
    && kv.2.workspaces.all (validWorkspaceEntry isTs)

/-- Model of `_validate_workspaces_metadata` (metadata_manager.py lines
333-366). -/
def validateWorkspacesMetadata (resolve : String → String) (isTs : String → Bool)
    (m : WorkspacesMetadata) : Bool :=
  (m.version == SCHEMA_VERSION) && m.repos.all (validRepoEntry resolve isTs)

/-- Python dict semantics: the repos map and each workspaces map have
pairwise-distinct keys.  Every `WorkspacesMetadata` arising from actual
Python dict values satisfies this. -/
def wellFormedDictKeys (m : WorkspacesMetadata) : Bool :=
  allDistinct (m.repos.map Prod.fst)
    && m.repos.all (fun kv => allDistinct (kv.2.workspaces.map Prod.fst))

/-- Model of `_migrate_v0_to_v1`. -/
def migrateV0toV1 (root : List (String × Json)) : List (String × Json) :=
  setKey root "version" (Json.num 1)

/-- Model of `_migrate_workspaces_metadata` (metadata_manager.py lines
251-281) specialised to `SCHEMA_VERSION = 1`, whose `_MIGRATIONS` table
has the single entry for version 0: version above 1 or below 0 is an
unsupported-schema error, version 1 is returned unchanged, version 0 runs
`_migrate_v0_to_v1` (whose output passes the bump check).  Returns the
possibly migrated document and whether a migration ran. -/
def migrateWorkspacesMetadata (raw : Json) : Except String (Json × Bool) :=
  match expectJsonObject raw "metadata file" with
  | Except.error e => Except.error e
  | Except.ok root =>
    match getField root "version" with
    | Json.num version =>
      if SCHEMA_VERSION < version then
        Except.error "unsupported metadata schema version"
      else if version == SCHEMA_VERSION then
        Except.ok (Json.obj root, false)
      else if version == 0 then
        Except.ok (Json.obj (migrateV0toV1 root), true)
      else
        Except.error "unsupported metadata schema version"
    | _ => Except.error "metadata version must be an integer"

/-- Model of `MetadataManager.read` (metadata_manager.py lines 59-75).
The filesystem is the optional JSON document stored at `self.path`
(`none` = file absent).  The migration-triggered rewrite touches only the
on-disk bytes, never the returned value, and cannot trigger for a
version-1 document, so it is not modelled here. -/
def readMetadata (resolve : String → String) (isTs : String → Bool)
    (fs : Option Json) : Except String WorkspacesMetadata :=
  match fs with
  | none => Except.ok ⟨SCHEMA_VERSION, []⟩
  | some raw =>
    match migrateWorkspacesMetadata raw with
    | Except.error e => Except.error e
    | Except.ok migrated =>
      match parseWorkspacesMetadata migrated.1 with
      | Except.error e => Except.error e
      | Except.ok metadata =>
        if validateWorkspacesMetadata resolve isTs metadata then Except.ok metadata
        else Except.error "invalid metadata"

/-- Model of `MetadataManager.write` (metadata_manager.py lines 77-81)
with the underlying atomic write succeeding: validate, serialize, store. -/
def writeMetadata (resolve : String → String) (isTs : String → Bool)
    (m : WorkspacesMetadata) (_fs : Option Json) : Except String (Option Json) :=
  if validateWorkspacesMetadata resolve isTs m then
    Except.ok (some (serializeWorkspacesMetadata m))
  else
    Except.error "invalid metadata"

/-- Model of `MetadataManager.ensure_repo_tracked` (metadata_manager.py
lines 83-106).  `canonicalGitDirResult` and `repoRootResult` stand for the
`canonical_git_dir(cwd)` / `repo_root(cwd)` subprocess results,
`defaultRemote` for `default_remote_name(cwd)`, and `now` for the value of
the injected `now()` callable.  Returns the new filesystem state. -/
def ensureRepoTracked (resolve : String → String) (isTs : String → Bool)
    (canonicalGitDirResult repoRootResult : Option String)
    (defaultRemote : Option String) (now : String) (fs : Option Json) :
    Except String (Option Json) :=
  match canonicalGitDirResult, repoRootResult with
  | some g, some r =>
    match readMetadata resolve isTs fs with
    | Except.error e => Except.error e
    | Except.ok metadata =>
      let existing := lookupKey metadata.repos g
      let tracked_at := match existing with
        | some e => e.tracked_at
        | none => now
      let workspaces := match existing with
        | some e => e.workspaces
        | none => []
      let updatedRepo : RepoMetadata := ⟨g, r, defaultRemote, tracked_at, now, workspaces⟩
      writeMetadata resolve isTs ⟨metadata.version, setKey metadata.repos g updatedRepo⟩ fs
  | _, _ => Except.error "cannot track repository metadata outside a git repository"

/-! ## Remote status cache (src/git_cuttle/remote_status.py) -/

/-- Model of `RemoteStatusCache`: the `ttl_seconds` setting and the
`_entries` dict keyed by `str(repo.git_dir)` holding `(fetched_at,
statuses)` pairs.  Times are integers standing for readings of the
injected clock; the status map type `σ` stands for
`dict[str, RemoteAheadBehindStatus]`. -/
structure RemoteStatusCache (σ : Type) where
  ttl_seconds : Int
  entries : List (String × Int × σ)
deriving DecidableEq, Repr

/-- Model of one call of `RemoteStatusCache.statuses_for_repo`
(remote_status.py lines 55-71): `cacheKey` is `str(repo.git_dir)`, `now`
the clock reading `self.now()` taken during the call, and `resolved` the
value `resolver(repo)` produces if invoked.  Returns the statuses handed
back, the updated cache, and whether the resolver was invoked. -/
def statusesForRepo {σ : Type} (cache : RemoteStatusCache σ) (cacheKey : String)
    (now : Int) (resolved : σ) : σ × RemoteStatusCache σ × Bool :=
  match lookupKey cache.entries cacheKey with
  | some entry =>
    if now - entry.1 < cache.ttl_seconds then (entry.2, cache, false)
    else (resolved, ⟨cache.ttl_seconds, setKey cache.entries cacheKey (now, resolved)⟩, true)
  | none =>
    (resolved, ⟨cache.ttl_seconds, setKey cache.entries cacheKey (now, resolved)⟩, true)

/-! ## Listing views (src/git_cuttle/list_output.py) -/

/-- `UNKNOWN_MARKER` from list_output.py. -/
def UNKNOWN_MARKER : String := "?"

/-- `TABLE_HEADERS` from list_output.py. -/
def TABLE_HEADERS : List String :=
  ["BRANCH", "KIND", "BASE", "UPSTREAM", "AHEAD", "BEHIND", "PR", "WORKTREE"]

/-- Model of `ListWorkspaceRow`. -/
structure ListWorkspaceRow where
  branch : String
  kind : String
  base_ref : String
  upstream_ref : String
  ahead : String
  behind : String
  pull_request : String
  worktree_path : String
deriving DecidableEq, Repr

/-- Model of `RemoteAheadBehindStatus` (remote_status.py lines 12-21). -/
structure RemoteAheadBehindStatus where
  branch : String
  upstream_ref : Option String
  ahead : Option Int
  behind : Option Int
deriving DecidableEq, Repr

/-- Model of `PullRequestStatus` (remote_status.py lines 27-37); `state`
is one of open, closed, merged, unknown, unavailable. -/
structure PullRequestStatus where
  branch : String
  upstream_ref : Option String
  state : String
  title : Option String
  url : Option String
deriving DecidableEq, Repr

/-- Insertion into an ascending list of strings. -/
def insertSorted (s : String) : List String → List String
  | [] => [s]
  | x :: xs => if s ≤ x then s :: x :: xs else x :: insertSorted s xs

/-- Python `sorted` on strings: ascending lexicographic code-point order. -/
def sortStrings (l : List String) : List String :=
  l.foldr insertSorted []

/-- Model of `_remote_upstream` (list_output.py lines 89-92). -/
def remoteUpstream (remote : Option RemoteAheadBehindStatus) : String :=
  match remote with
  | none => UNKNOWN_MARKER
  | some r =>
    match r.upstream_ref with
    | none => UNKNOWN_MARKER
    | some u => u

/-- Model of `_remote_count` (list_output.py lines 95-105). -/
def remoteCount (remote : Option RemoteAheadBehindStatus) (field : String) : String :=
  match remote with
  | none => UNKNOWN_MARKER
  | some r =>
    let value := if field = "ahead" then r.ahead else r.behind
    match value with
    | none => UNKNOWN_MARKER
    | some v => toString v

/-- Model of `rows_for_repo` (list_output.py lines 32-56): one row per
workspace, branches in sorted order.  The Python indexing
`repo.workspaces[branch]` cannot fail because the keys come from the same
dict; the lookup models it. -/
def rowsForRepo (repo : RepoMetadata)
    (remote_statuses : List (String × RemoteAheadBehindStatus))
    (pr_statuses : List (String × PullRequestStatus)) : List ListWorkspaceRow :=
  (sortStrings (repo.workspaces.map Prod.fst)).filterMap (fun branch =>
    match lookupKey repo.workspaces branch with
    | none => none
    | some workspace =>
      let remote := lookupKey remote_statuses branch
      let pr := lookupKey pr_statuses branch
      some ⟨workspace.branch, workspace.kind.toStr, workspace.base_ref,
        remoteUpstream remote,
        remoteCount remote "ahead", remoteCount remote "behind",
        (match pr with
         | some p => p.state
         | none => UNKNOWN_MARKER),
        workspace.worktree_path⟩)

/-- Python `str.ljust`. -/
def ljust (s : String) (w : Nat) : String :=
  s ++ String.mk (List.replicate (w - s.length) ' ')

/-- Model of `_format_row` (list_output.py lines 108-109). -/
def formatRow (values : List String) (widths : List Nat) : String :=
  String.intercalate "  " ((values.zip widths).map (fun vw => ljust vw.1 vw.2))

/-- The cell values of a row in column order (list_output.py lines 60-71). -/
def rowCells (r : ListWorkspaceRow) : List String :=
  [r.branch, r.kind, r.base_ref, r.upstream_ref, r.ahead, r.behind,
   r.pull_request, r.worktree_path]

/-- Model of the width computation of `render_workspace_table`
(list_output.py lines 74-77): start from the header widths and take the
per-column maximum with every row. -/
def columnWidths (tableRows : List (List String)) : List Nat :=
  tableRows.foldl
    (fun ws row => (ws.zip row).map (fun p => max p.1 p.2.length))
    (TABLE_HEADERS.map String.length)

/-- Model of `render_workspace_table` (list_output.py lines 59-86). -/
def renderWorkspaceTable (rows : List ListWorkspaceRow) : String :=
  let tableRows := rows.map rowCells
  let widths := columnWidths tableRows
  let lines := [formatRow TABLE_HEADERS widths] ++ tableRows.map (fun r => formatRow r widths)
  let lines2 := if tableRows.isEmpty then lines ++ ["(no tracked workspaces)"] else lines
  String.intercalate "\n" lines2

/-! ## Absorb target heuristic (src/git_cuttle/absorb.py) -/

/-- The per-parent score of `_heuristic_target_parent` (absorb.py lines
174-180): how many of the commit's changed files exist at the parent's
tip.  `existsAt parent path` is the oracle standing for
`git cat-file -e parent:path` succeeding. -/
def scoreFor (existsAt : String → String → Bool) (changed : List String)
    (parent : String) : Nat :=
  (changed.filter (fun f => existsAt parent f)).length

/-- The `scores` dict of `_heuristic_target_parent`: keyed by parent in
first-occurrence order.  Python dict assignment collapses duplicate
parents (each getting the same recomputed score); octopus parents are
distinct by the metadata invariant. -/
def heuristicScores (existsAt : String → String → Bool) (changed : List String)
    (parents : List String) : List (String × Nat) :=
  (dedupFirst parents).map (fun p => (p, scoreFor existsAt changed p))

/-- Python `max(items, key=value)`: the first item carrying the maximal
value (later items replace the current best only when strictly greater). -/
def maxBySnd : (String × Nat) → List (String × Nat) → String × Nat
  | best, [] => best
  | best, x :: xs => maxBySnd (if best.2 < x.2 then x else best) xs

/-- The `best_parent, best_score` pair of `_heuristic_target_parent`. -/
def heuristicBest (existsAt : String → String → Bool) (changed : List String)
    (parents : List String) : String × Nat :=
  match heuristicScores existsAt changed parents with
  | [] => ("", 0)
  | s :: ss => maxBySnd s ss

/-- Model of `_heuristic_target_parent` (absorb.py lines 162-196).  The
float test `best_score / len(changed_files) < 0.6` is expressed as the
exact rational comparison `5 * best_score < 3 * total`, which agrees with
the float computation for every feasible changed-file count. -/
def heuristicTargetParent (existsAt : String → String → Bool) (changed : List String)
    (parents : List String) : Except String String :=
  if changed.isEmpty then Except.error "absorb-target-uncertain"
  else
    match heuristicScores existsAt changed parents with
    | [] => Except.error "max-of-empty-scores"
    | s :: ss =>
      let best := maxBySnd s ss
      let tied := decide (1 < ((s :: ss).filter (fun q => q.2 == best.2)).length)
      if best.2 == 0 || tied || decide (5 * best.2 < 3 * changed.length) then
        Except.error "absorb-target-uncertain"
      else
        Except.ok best.1

/-! ## SHA-256 (`hashlib.sha256`, as used by workspace_paths.py) -/

/-- Right rotation of a 32-bit word. -/
def rotr32 (x n : Nat) : Nat :=
  ((x >>> n) ||| (x <<< (32 - n))) % 4294967296

/-- The SHA-256 choose function; 32-bit complement via xor with ones. -/
def ch32 (x y z : Nat) : Nat := (x &&& y) ^^^ ((x ^^^ 4294967295) &&& z)

/-- The SHA-256 majority function. -/
def maj32 (x y z : Nat) : Nat := (x &&& y) ^^^ (x &&& z) ^^^ (y &&& z)

/-- The SHA-256 big sigma-0 function. -/
def bigSigma0 (x : Nat) : Nat := rotr32 x 2 ^^^ rotr32 x 13 ^^^ rotr32 x 22

/-- The SHA-256 big sigma-1 function. -/
def bigSigma1 (x : Nat) : Nat := rotr32 x 6 ^^^ rotr32 x 11 ^^^ rotr32 x 25

/-- The SHA-256 small sigma-0 function. -/
def smallSigma0 (x : Nat) : Nat := rotr32 x 7 ^^^ rotr32 x 18 ^^^ (x >>> 3)

/-- The SHA-256 small sigma-1 function. -/
def smallSigma1 (x : Nat) : Nat := rotr32 x 17 ^^^ rotr32 x 19 ^^^ (x >>> 10)

/-- The SHA-256 round constants (FIPS 180-4), written in decimal. -/
def sha256K : List Nat :=
  [1116352408, 1899447441, 3049323471, 3921009573, 961987163,
   1508970993, 2453635748, 2870763221, 3624381080, 310598401,
   607225278, 1426881987, 1925078388, 2162078206, 2614888103,
   3248222580, 3835390401, 4022224774, 264347078, 604807628,
   770255983, 1249150122, 1555081692, 1996064986, 2554220882,
   2821834349, 2952996808, 3210313671, 3336571891, 3584528711,
   113926993, 338241895, 666307205, 773529912, 1294757372,
   1396182291, 1695183700, 1986661051, 2177026350, 2456956037,
   2730485921, 2820302411, 3259730800, 3345764771, 3516065817,
   3600352804, 4094571909, 275423344, 430227734, 506948616,
   659060556, 883997877, 958139571, 1322822218, 1537002063,
   1747873779, 1955562222, 2024104815, 2227730452, 2361852424,
   2428436474, 2756734187, 3204031479, 3329325298]

/-- The SHA-256 initial hash value (FIPS 180-4), written in decimal. -/
def sha256H0 : List Nat :=
  [1779033703, 3144134277, 1013904242, 2773480762,
   1359893119, 2600822924, 528734635, 1541459225]

/-- Extends a 16-word block to the 64-word message schedule; the fuel (48)
bounds the recursion structurally so the definition evaluates inside the
kernel. -/
def extendSchedule : Nat → List Nat → List Nat
  | 0, w => w
  | fuel + 1, w =>
    if w.length < 64 then
      extendSchedule fuel (w ++ [(smallSigma1 (w.getD (w.length - 2) 0)
        + w.getD (w.length - 7) 0
        + smallSigma0 (w.getD (w.length - 15) 0)
        + w.getD (w.length - 16) 0) % 4294967296])
    else w

/-- The eight 32-bit working variables of the compression function. -/
structure Sha256State where
  a : Nat
  b : Nat
  c : Nat
  d : Nat
  e : Nat
  f : Nat
  g : Nat
  h : Nat
deriving DecidableEq, Repr

/-- One SHA-256 compression round. -/
def sha256Round (st : Sha256State) (kw : Nat × Nat) : Sha256State :=
  let t1 := (st.h + bigSigma1 st.e + ch32 st.e st.f st.g + kw.1 + kw.2) % 4294967296
  let t2 := (bigSigma0 st.a + maj32 st.a st.b st.c) % 4294967296
  ⟨(t1 + t2) % 4294967296, st.a, st.b, st.c, (st.d + t1) % 4294967296, st.e, st.f, st.g⟩

/-- Loads eight words into the working variables. -/
def listToState : List Nat → Sha256State
  | [a, b, c, d, e, f, g, hh] => ⟨a, b, c, d, e, f, g, hh⟩
  | _ => ⟨0, 0, 0, 0, 0, 0, 0, 0⟩

/-- The working variables as a word list. -/
def stateToList (st : Sha256State) : List Nat :=
  [st.a, st.b, st.c, st.d, st.e, st.f, st.g, st.h]

/-- Big-endian 32-bit words from a byte list. -/
def bytesToWords : List Nat → List Nat
  | b0 :: b1 :: b2 :: b3 :: rest =>
    (((b0 * 256 + b1) * 256 + b2) * 256 + b3) :: bytesToWords rest
  | _ => []

/-- Splits a byte list into 64-byte blocks; the fuel bounds recursion. -/
def chunks64 : Nat → List Nat → List (List Nat)
  | 0, _ => []
  | _, [] => []
  | fuel + 1, l => l.take 64 :: chunks64 fuel (l.drop 64)

/-- The 8-byte big-endian bit-length trailer. -/
def lengthBytes (n : Nat) : List Nat :=
  [n / 72057594037927936 % 256, n / 281474976710656 % 256, n / 1099511627776 % 256,
   n / 4294967296 % 256, n / 16777216 % 256, n / 65536 % 256, n / 256 % 256, n % 256]

/-- SHA-256 padding: a 0x80 byte, zeros up to 56 mod 64, the bit length. -/
def padMessage (msg : List Nat) : List Nat :=
  msg ++ [128] ++ List.replicate ((119 - msg.length % 64) % 64) 0
    ++ lengthBytes (msg.length * 8)

/-- One application of the compression function to a 64-byte block. -/
def sha256Block (hs : List Nat) (block : List Nat) : List Nat :=
  let w := extendSchedule 48 (bytesToWords block)
  let st := (sha256K.zip w).foldl sha256Round (listToState hs)
  (hs.zip (stateToList st)).map (fun p => (p.1 + p.2) % 4294967296)

/-- SHA-256 digest of a byte list, as eight 32-bit words. -/
def sha256Words (msg : List Nat) : List Nat :=
  (chunks64 (padMessage msg).length (padMessage msg)).foldl sha256Block sha256H0

/-- Lowercase hexadecimal digit. -/
def hexDigit (n : Nat) : Char :=
  if n < 10 then Char.ofNat (48 + n) else Char.ofNat (87 + n)

/-- Eight hex digits of a 32-bit word. -/
def hex8 (n : Nat) : List Char :=
  [hexDigit (n / 268435456 % 16), hexDigit (n / 16777216 % 16),
   hexDigit (n / 1048576 % 16), hexDigit (n / 65536 % 16),
   hexDigit (n / 4096 % 16), hexDigit (n / 256 % 16),
   hexDigit (n / 16 % 16), hexDigit (n % 16)]

/-- UTF-8 encoding of one character, as in `str.encode("utf-8")`. -/
def utf8Bytes (c : Char) : List Nat :=
  let n := c.toNat
  if n < 128 then [n]
  else if n < 2048 then [192 + n / 64, 128 + n % 64]
  else if n < 65536 then [224 + n / 4096, 128 + n / 64 % 64, 128 + n % 64]
  else [240 + n / 262144, 128 + n / 4096 % 64, 128 + n / 64 % 64, 128 + n % 64]

/-- Model of `hashlib.sha256(value.encode("utf-8")).hexdigest()`. -/
def sha256hex (value : String) : String :=
  String.mk ((sha256Words (value.data.foldr (fun c acc => utf8Bytes c ++ acc) [])).foldr
    (fun w acc => hex8 w ++ acc) [])

/-! ## Workspace path derivation (src/git_cuttle/workspace_paths.py) -/

/-- Characters kept by the branch sanitizer class `[A-Za-z0-9._-]`. -/
def isBranchAllowedChar (c : Char) : Bool :=
  let n := c.toNat
  decide (65 ≤ n ∧ n ≤ 90) || decide (97 ≤ n ∧ n ≤ 122) || decide (48 ≤ n ∧ n ≤ 57)
    || n == 46 || n == 95 || n == 45

/-- Model of `re.sub(pattern, "-", s)` for a negated character class:
every maximal run of disallowed characters yields a single dash.
`prevBad` records whether the previous character belonged to a run. -/
def subRunsAux (allowed : Char → Bool) : List Char → Bool → List Char
  | [], _ => []
  | c :: cs, prevBad =>
    if allowed c then c :: subRunsAux allowed cs false
    else if prevBad then subRunsAux allowed cs true
    else '-' :: subRunsAux allowed cs true

/-- Python `str.strip(chars)`: drop leading and trailing characters from
the strip set. -/
def stripChars (inSet : Char → Bool) (l : List Char) : List Char :=
  ((l.dropWhile inSet).reverse.dropWhile inSet).reverse

/-- The strip set `"-._"` of `derive_branch_dir`. -/
def isBranchStripChar (c : Char) : Bool := c == '-' || c == '.' || c == '_'

/-- ASCII lowercasing; after sanitization only ASCII characters remain, so
this coincides with Python `str.lower`. -/
def lowerChars (l : List Char) : List Char := l.map Char.toLower

/-- Model of `derive_branch_dir` (workspace_paths.py lines 31-33). -/
def deriveBranchDir (branch : String) : String :=
  let sanitized := String.mk (lowerChars (stripChars isBranchStripChar
    (subRunsAux isBranchAllowedChar branch.data false)))
  if sanitized = "" then "workspace" else sanitized

/-- Characters kept by the repo-name slugifier class `[A-Za-z0-9]`. -/
def isSlugAllowedChar (c : Char) : Bool :=
  let n := c.toNat
  decide (65 ≤ n ∧ n ≤ 90) || decide (97 ≤ n ∧ n ≤ 122) || decide (48 ≤ n ∧ n ≤ 57)

/-- Model of `_slugify_repo_name` (workspace_paths.py lines 43-45). -/
def slugifyRepoName (repoName : String) : String :=
  let slug := String.mk (lowerChars (stripChars (fun c => c == '-')
    (subRunsAux isSlugAllowedChar repoName.data false)))
  if slug = "" then "repo" else slug

/-- The first `n` characters of a string (slice of an ASCII hex digest). -/
def strTake (s : String) (n : Nat) : String := String.mk (s.data.take n)

/-- Slash-splitting for the `Path.parent.name` computation. -/
def splitOnChar (sep : Char) : List Char → List (List Char)
  | [] => [[]]
  | c :: cs =>
    match splitOnChar sep cs with
    | [] => [[c]]
    | r :: rs => if c = sep then [] :: r :: rs else (c :: r) :: rs

/-- `Path(p).parent.name` on a canonical absolute POSIX path string: the
last-but-one nonempty slash-separated component, empty when absent. -/
def pathParentName (p : String) : String :=
  let comps := ((splitOnChar '/' p.data).filter (fun c => !c.isEmpty)).map String.mk
  match comps.dropLast.getLast? with
  | some n => n
  | none => ""

/-- Model of `derive_repo_id` (workspace_paths.py lines 24-28); `resolve`
stands for `Path.resolve(strict=False)` against the live filesystem. -/
def deriveRepoId (resolve : String → String) (gitDir : String) : String :=
  let canonical := resolve gitDir
  slugifyRepoName (pathParentName canonical) ++ "-" ++ strTake (sha256hex canonical) 8

/-- Model of `_workspace_root_dir` (workspace_paths.py lines 36-40): `xdg`
is the `XDG_DATA_HOME` value (`none` = unset; the empty string is falsy
and also falls back), `home` is `Path.home()`. -/
def workspaceRootDir (xdg : Option String) (home : String) : String :=
  match xdg with
  | some dh => if dh ≠ "" then dh ++ "/gitcuttle" else home ++ "/.local/share/gitcuttle"
  | none => home ++ "/.local/share/gitcuttle"

/-- Model of `_has_sanitized_collision` (workspace_paths.py lines 48-55). -/
def hasSanitizedCollision (branch : String) (siblingBranches : List String) : Bool :=
  siblingBranches.any (fun sibling =>
    if sibling = branch then false
    else deriveBranchDir sibling == deriveBranchDir branch)

/-- Model of `derive_workspace_path` (workspace_paths.py lines 8-21),
rendered as the joined POSIX path string. -/
def deriveWorkspacePath (xdg : Option String) (home : String)
    (resolve : String → String) (gitDir branch : String)
    (siblingBranches : List String) : String :=
  let repoId := deriveRepoId resolve gitDir
  let branchDir := deriveBranchDir branch
  let branchDir2 :=
    if hasSanitizedCollision branch siblingBranches then
      branchDir ++ "-" ++ strTake (sha256hex branch) 6
    else branchDir
  workspaceRootDir xdg home ++ "/" ++ repoId ++ "/" ++ branchDir2

/-! ## Theorems -/

theorem rollbackCompleted_all_ok (l : List TxnStep) (h : ∀ s ∈ l, s.rollback = none) :
    rollbackCompleted l =
      (l.map (fun s => TxnEvent.rollbackCalled s.name), l.map TxnStep.name, []) := by
  induction l with
  | nil => rfl
  | cons s rest ih =>
    have hs : s.rollback = none := h s (List.mem_cons_self s rest)
    have hr := ih (fun t ht => h t (List.mem_cons_of_mem s ht))
    simp [rollbackCompleted, hs, hr]

theorem rollbackCompleted_eq (l : List TxnStep) :
    rollbackCompleted l =
      (l.map (fun s => TxnEvent.rollbackCalled s.name),
       (l.filter (fun s => s.rollback.isNone)).map TxnStep.name,
       l.filterMap (fun s =>
         s.rollback.map (fun e => RollbackFailure.mk s.name e s.recovery_commands))) := by
  induction l with
  | nil => rfl
  | cons s rest ih =>
    cases hs : s.rollback with
    | none => simp [rollbackCompleted, ih, hs]
    | some e => simp [rollbackCompleted, ih, hs]

theorem runStepsAux_ok_front (txn_id : String) (pre rest completed : List TxnStep)
    (trace : List TxnEvent) (h : ∀ s ∈ pre, s.apply = none) :
    runStepsAux txn_id (pre ++ rest) completed trace =
      runStepsAux txn_id rest (pre.reverse ++ completed)
        (trace ++ pre.map (fun s => TxnEvent.applyCalled s.name)) := by
  induction pre generalizing completed trace with
  | nil => simp
  | cons s ps ih =>
    have hs : s.apply = none := h s (List.mem_cons_self s ps)
    have hstep : runStepsAux txn_id ((s :: ps) ++ rest) completed trace =
        runStepsAux txn_id (ps ++ rest) (s :: completed)
          (trace ++ [TxnEvent.applyCalled s.name]) := by
      simp [runStepsAux, hs]
    rw [hstep, ih (s :: completed) (trace ++ [TxnEvent.applyCalled s.name])
      (fun t ht => h t (List.mem_cons_of_mem s ht))]
    congr 1
    · simp
    · simp

/-- C1: `Transaction.run` applies steps in insertion order; when step `k`
fails and every completed step rolls back cleanly, the rollbacks of steps
`k-1` down to `0` are each invoked exactly once, in reverse completion
order, before the error surfaces, and the resulting
`TransactionExecutionError` carries the transaction id, the failing step's
name, the original cause, and the rolled-back step names in rollback
order. -/
theorem transaction_run_rolls_back_in_reverse_order
    (txn_id cause : String) (pre rest : List TxnStep) (failing : TxnStep)
    (happly : ∀ s ∈ pre, s.apply = none)
    (hrb : ∀ s ∈ pre, s.rollback = none)
    (hfail : failing.apply = some cause) :
    txnRun txn_id (pre ++ failing :: rest) =
      (pre.map (fun s => TxnEvent.applyCalled s.name)
         ++ [TxnEvent.applyCalled failing.name]
         ++ pre.reverse.map (fun s => TxnEvent.rollbackCalled s.name),
       TxnOutcome.executionError txn_id failing.name cause
         (pre.reverse.map TxnStep.name)) := by
  unfold txnRun
  rw [runStepsAux_ok_front txn_id pre (failing :: rest) [] [] happly]
  have hrb2 : ∀ s ∈ pre.reverse, s.rollback = none := by
    intro s hsm
    exact hrb s (List.mem_reverse.mp hsm)
  simp [runStepsAux, hfail, rollbackCompleted_all_ok _ hrb2]

/-- C1 witness: a concrete three-step transaction whose third step fails. -/
theorem transaction_run_rolls_back_in_reverse_order_witness :
    txnRun "txn-1"
      [⟨"step-a", none, none, []⟩, ⟨"step-b", none, none, []⟩,
       ⟨"step-c", some "boom", none, []⟩] =
      ([TxnEvent.applyCalled "step-a", TxnEvent.applyCalled "step-b",
        TxnEvent.applyCalled "step-c",
        TxnEvent.rollbackCalled "step-b", TxnEvent.rollbackCalled "step-a"],
       TxnOutcome.executionError "txn-1" "step-c" "boom" ["step-b", "step-a"]) :=
  transaction_run_rolls_back_in_reverse_order "txn-1" "boom"
    [⟨"step-a", none, none, []⟩, ⟨"step-b", none, none, []⟩] []
    ⟨"step-c", some "boom", none, []⟩ (by decide) (by decide) rfl

theorem addCommands_spec (cs : List String) (seen commands : List String)
    (hinv : ∀ c, c ∈ seen ↔ c ∈ commands) :
    (addCommands seen commands cs).2 =
        cs.foldl (fun acc c => if c ∈ acc then acc else acc ++ [c]) commands
      ∧ ∀ c, c ∈ (addCommands seen commands cs).1 ↔ c ∈ (addCommands seen commands cs).2 := by
  induction cs generalizing seen commands with
  | nil => exact ⟨rfl, hinv⟩
  | cons c cs ih =>
    by_cases hc : c ∈ seen
    · have hc2 : c ∈ commands := (hinv c).mp hc
      simp only [addCommands, if_pos hc, List.foldl_cons, if_pos hc2]
      exact ih seen commands hinv
    · have hc2 : c ∉ commands := fun hmem => hc ((hinv c).mpr hmem)
      simp only [addCommands, if_neg hc, List.foldl_cons, if_neg hc2]
      refine ih (c :: seen) (commands ++ [c]) ?_
      intro d
      constructor
      · intro hd
        rcases List.mem_cons.mp hd with hd2 | hd2
        · exact List.mem_append.mpr (Or.inr (List.mem_singleton.mpr hd2))
        · exact List.mem_append.mpr (Or.inl ((hinv d).mp hd2))
      · intro hd
        rcases List.mem_append.mp hd with hd2 | hd2
        · exact List.mem_cons.mpr (Or.inr ((hinv d).mpr hd2))
        · exact List.mem_cons.mpr (Or.inl (List.mem_singleton.mp hd2))

theorem recoveryCommandsLoop_spec (fs : List RollbackFailure) (seen commands : List String)
    (hinv : ∀ c, c ∈ seen ↔ c ∈ commands) :
    recoveryCommandsLoop seen commands fs =
      (fs.flatMap RollbackFailure.recovery_commands).foldl
        (fun acc c => if c ∈ acc then acc else acc ++ [c]) commands := by
  induction fs generalizing seen commands with
  | nil => rfl
  | cons f fs ih =>
    have h := addCommands_spec f.recovery_commands seen commands hinv
    simp only [recoveryCommandsLoop, List.flatMap_cons, List.foldl_append]
    rw [ih _ _ h.2, h.1]

theorem recoveryCommands_eq_dedupFirst (fs : List RollbackFailure) :
    recoveryCommands fs = dedupFirst (fs.flatMap RollbackFailure.recovery_commands) := by
  unfold recoveryCommands dedupFirst
  exact recoveryCommandsLoop_spec fs [] [] (by simp)

/-- C5: when step `k` fails and some rollback also fails, `Transaction.run`
still attempts the rollback of every completed step (the trace records a
rollback invocation for each of steps `k-1` down to `0`, in reverse
completion order), the raised `TransactionRollbackError` records each
failed rollback's step name, error and recovery commands, and its
`recovery_commands()` method returns the union of the failed steps'
recovery commands in first-occurrence order with duplicates removed. -/
theorem transaction_partial_rollback_reports
    (txn_id cause : String) (pre rest : List TxnStep) (failing : TxnStep)
    (happly : ∀ s ∈ pre, s.apply = none)
    (hfail : failing.apply = some cause)
    (hbad : pre.any (fun s => s.rollback.isSome) = true) :
    txnRun txn_id (pre ++ failing :: rest) =
      (pre.map (fun s => TxnEvent.applyCalled s.name)
         ++ [TxnEvent.applyCalled failing.name]
         ++ pre.reverse.map (fun s => TxnEvent.rollbackCalled s.name),
       TxnOutcome.rollbackError txn_id failing.name cause
         (pre.reverse.filterMap (fun s =>
           s.rollback.map (fun e => RollbackFailure.mk s.name e s.recovery_commands)))
         ((pre.reverse.filter (fun s => s.rollback.isNone)).map TxnStep.name))
    ∧ recoveryCommands
        (pre.reverse.filterMap (fun s =>
          s.rollback.map (fun e => RollbackFailure.mk s.name e s.recovery_commands))) =
      dedupFirst ((pre.reverse.filterMap (fun s =>
          s.rollback.map (fun e => RollbackFailure.mk s.name e s.recovery_commands))).flatMap
        RollbackFailure.recovery_commands) := by
  constructor
  · unfold txnRun
    rw [runStepsAux_ok_front txn_id pre (failing :: rest) [] [] happly]
    have hne : pre.reverse.filterMap (fun s =>
        s.rollback.map (fun e => RollbackFailure.mk s.name e s.recovery_commands)) ≠ [] := by
      rw [List.any_eq_true] at hbad
      obtain ⟨s, hsm, hs⟩ := hbad
      rw [Option.isSome_iff_exists] at hs
      obtain ⟨e, he⟩ := hs
      intro hnil
      have : RollbackFailure.mk s.name e s.recovery_commands ∈
          pre.reverse.filterMap (fun s =>
            s.rollback.map (fun e => RollbackFailure.mk s.name e s.recovery_commands)) := by
        rw [List.mem_filterMap]
        exact ⟨s, List.mem_reverse.mpr hsm, by rw [he]; rfl⟩
      rw [hnil] at this
      exact List.not_mem_nil _ this
    cases hcase : pre.reverse.filterMap (fun s =>
        s.rollback.map (fun e => RollbackFailure.mk s.name e s.recovery_commands)) with
    | nil => exact absurd hcase hne
    | cons f fs =>
      simp [runStepsAux, hfail, rollbackCompleted_eq, hcase]
  · exact recoveryCommands_eq_dedupFirst _

/-- C5 witness: two failing rollbacks with overlapping recovery commands. -/
theorem transaction_partial_rollback_reports_witness :
    txnRun "txn-2"
      [⟨"sa", none, some "e1", ["r1", "r2"]⟩, ⟨"sb", none, none, []⟩,
       ⟨"sc", none, some "e2", ["r2", "r3"]⟩, ⟨"sd", some "boom", none, []⟩] =
      ([TxnEvent.applyCalled "sa", TxnEvent.applyCalled "sb", TxnEvent.applyCalled "sc",
        TxnEvent.applyCalled "sd",
        TxnEvent.rollbackCalled "sc", TxnEvent.rollbackCalled "sb",
        TxnEvent.rollbackCalled "sa"],
       TxnOutcome.rollbackError "txn-2" "sd" "boom"
         [⟨"sc", "e2", ["r2", "r3"]⟩, ⟨"sa", "e1", ["r1", "r2"]⟩] ["sb"])
    ∧ recoveryCommands [⟨"sc", "e2", ["r2", "r3"]⟩, ⟨"sa", "e1", ["r1", "r2"]⟩] =
        dedupFirst ["r2", "r3", "r1", "r2"] :=
  transaction_partial_rollback_reports "txn-2" "boom"
    [⟨"sa", none, some "e1", ["r1", "r2"]⟩, ⟨"sb", none, none, []⟩,
     ⟨"sc", none, some "e2", ["r2", "r3"]⟩] []
    ⟨"sd", some "boom", none, []⟩ (by decide) rfl (by decide)

/-- C2 counterexample: starting from a tracked workspace with an existing
worktree and branch, a failing branch deletion surfaces the error while the
already-performed worktree removal stays applied — nothing is rolled back,
because `delete_workspace` uses no transaction. -/
theorem delete_no_transaction_counterexample :
    deleteWorkspaceLive (some DeleteAction.deleteBranch) ⟨true, true, true⟩ =
      (⟨false, true, true⟩, false) := by decide

theorem pruneLiveLoop_ok_front (pre rest : List PruneItem)
    (hpre : ∀ i ∈ pre, (i.worktreeExists → i.removeWorktreeFails = false)
      ∧ (i.localBranchExists → i.deleteBranchFails = false)) :
    pruneLiveLoop (pre ++ rest) =
      (pre.flatMap pruneItemEffects ++ (pruneLiveLoop rest).1, (pruneLiveLoop rest).2) := by
  induction pre with
  | nil => simp
  | cons i pre ih =>
    have hi := hpre i (List.mem_cons_self i pre)
    have hrec := ih (fun j hj => hpre j (List.mem_cons_of_mem i hj))
    have hc1 : ¬(i.worktreeExists ∧ i.removeWorktreeFails) := by
      rintro ⟨h1, h2⟩
      rw [hi.1 h1] at h2
      exact Bool.false_ne_true h2
    have hc2 : ¬(i.localBranchExists ∧ i.deleteBranchFails) := by
      rintro ⟨h1, h2⟩
      rw [hi.2 h1] at h2
      exact Bool.false_ne_true h2
    simp only [List.cons_append, pruneLiveLoop, if_neg hc1, if_neg hc2, hrec,
      List.flatMap_cons, pruneItemEffects]
    simp [hrec, List.append_assoc]

/-- C2 amended: in live mode, `delete_workspace` and `prune_workspaces`
perform worktree removal, branch deletion and metadata untracking
sequentially without any transaction: on success all effects are applied
with the metadata persisted last; when an action fails, the remaining
actions are skipped, the already-applied git mutations are not rolled
back, and the metadata file is left unchanged. -/
theorem delete_prune_sequential_no_rollback (st : DeleteState)
    (pre : List PruneItem) (failing : PruneItem) (rest : List PruneItem)
    (hpre : ∀ i ∈ pre, (i.worktreeExists → i.removeWorktreeFails = false)
      ∧ (i.localBranchExists → i.deleteBranchFails = false))
    (hfail : failing.localBranchExists = true)
    (hfail2 : failing.deleteBranchFails = true)
    (hfail3 : failing.worktreeExists → failing.removeWorktreeFails = false) :
    deleteWorkspaceLive none st = (⟨false, false, false⟩, true)
    ∧ deleteWorkspaceLive (some DeleteAction.deleteBranch) st =
        (⟨false, st.branchExists, st.trackedInMetadata⟩, false)
    ∧ pruneWorkspacesLive (pre ++ failing :: rest) =
        (pre.flatMap pruneItemEffects
           ++ (if failing.worktreeExists then [PruneEffect.removedWorktree failing.branch]
               else []),
         false, false) := by
  refine ⟨by simp [deleteWorkspaceLive], by simp [deleteWorkspaceLive], ?_⟩
  have hc1 : ¬(failing.worktreeExists ∧ failing.removeWorktreeFails) := by
    rintro ⟨h1, h2⟩
    rw [hfail3 h1] at h2
    exact Bool.false_ne_true h2
  have hloop : pruneLiveLoop (failing :: rest) =
      ((if failing.worktreeExists then [PruneEffect.removedWorktree failing.branch] else []),
       false) := by
    simp [pruneLiveLoop, if_neg hc1, hfail, hfail2]
  unfold pruneWorkspacesLive
  rw [pruneLiveLoop_ok_front pre (failing :: rest) hpre, hloop]
  simp

/-- C2 amended witness: one successfully pruned branch followed by a
branch whose deletion fails. -/
theorem delete_prune_sequential_no_rollback_witness :
    deleteWorkspaceLive none ⟨true, true, true⟩ = (⟨false, false, false⟩, true)
    ∧ deleteWorkspaceLive (some DeleteAction.deleteBranch) ⟨true, true, true⟩ =
        (⟨false, true, true⟩, false)
    ∧ pruneWorkspacesLive
        [⟨"b1", true, true, false, false⟩, ⟨"b2", true, true, false, true⟩] =
        ([PruneEffect.removedWorktree "b1", PruneEffect.deletedBranch "b1",
          PruneEffect.removedWorktree "b2"], false, false) :=
  delete_prune_sequential_no_rollback ⟨true, true, true⟩
    [⟨"b1", true, true, false, false⟩] ⟨"b2", true, true, false, true⟩ []
    (by decide) rfl rfl (by decide)

/-- C4: if the temp-file creation, the temp-file write, the temp-file
fsync, or the rename over the target fails, `_atomic_write_text` leaves
the pre-existing on-disk value unchanged byte-for-byte, deletes the
temporary file so none remains, and propagates the error. -/
theorem atomic_write_failure_preserves_target (failAt : WriteOp) (content : String)
    (fs : AtomicFs) (hstart : fs.temp = none)
    (hf : failAt = WriteOp.createTempFile ∨ failAt = WriteOp.writeTempFile
      ∨ failAt = WriteOp.fsyncTempFile ∨ failAt = WriteOp.renameOverTarget) :
    (atomicWriteText (some failAt) content fs).1.target = fs.target
    ∧ (atomicWriteText (some failAt) content fs).1.temp = none
    ∧ (atomicWriteText (some failAt) content fs).2 = false := by
  rcases hf with rfl | rfl | rfl | rfl <;> simp [atomicWriteText, hstart]

/-- C4 witness: a failing rename with a pre-existing on-disk value. -/
theorem atomic_write_failure_preserves_target_witness :
    (atomicWriteText (some WriteOp.renameOverTarget) "new" ⟨some "old", none⟩).1.target
        = (⟨some "old", none⟩ : AtomicFs).target
    ∧ (atomicWriteText (some WriteOp.renameOverTarget) "new" ⟨some "old", none⟩).1.temp = none
    ∧ (atomicWriteText (some WriteOp.renameOverTarget) "new" ⟨some "old", none⟩).2 = false :=
  atomic_write_failure_preserves_target WriteOp.renameOverTarget "new" ⟨some "old", none⟩
    rfl (Or.inr (Or.inr (Or.inr rfl)))

theorem mapExcept_parseStrListElem (l : List String) :
    mapExcept parseStrListElem (l.map Json.str) = Except.ok l := by
  induction l with
  | nil => rfl
  | cons s rest ih => simp [mapExcept, parseStrListElem, ih]

theorem parseWorkspace_serialize (w : WorkspaceMetadata) :
    parseWorkspace (serializeWorkspace w) = Except.ok w := by
  cases w with
  | mk branch wp tr kind br op ca ua =>
    cases kind <;> cases tr <;>
      simp [parseWorkspace, serializeWorkspace, expectJsonObject, getField, lookupKey,
        jsonOfOptStr, WorkspaceKind.toStr, mapExcept_parseStrListElem]

theorem mapExcept_parseWorkspaceEntry (l : List (String × WorkspaceMetadata)) :
    mapExcept parseWorkspaceEntry (l.map (fun kv => (kv.1, serializeWorkspace kv.2)))
      = Except.ok l := by
  induction l with
  | nil => rfl
  | cons kv rest ih =>
    simp [mapExcept, parseWorkspaceEntry, parseWorkspace_serialize, ih]

theorem parseRepo_serialize (r : RepoMetadata) :
    parseRepo (serializeRepo r) = Except.ok r := by
  cases r with
  | mk gd rr dr ta ua ws =>
    cases dr <;>
      simp [parseRepo, serializeRepo, expectJsonObject, getField, lookupKey,
        jsonOfOptStr, mapExcept_parseWorkspaceEntry]

theorem mapExcept_parseRepoEntry (l : List (String × RepoMetadata)) :
    mapExcept parseRepoEntry (l.map (fun kv => (kv.1, serializeRepo kv.2))) = Except.ok l := by
  induction l with
  | nil => rfl
  | cons kv rest ih =>
    simp [mapExcept, parseRepoEntry, parseRepo_serialize, ih]

theorem parseWorkspacesMetadata_serialize (m : WorkspacesMetadata) :
    parseWorkspacesMetadata (serializeWorkspacesMetadata m) = Except.ok m := by
  cases m with
  | mk version repos =>
    simp [parseWorkspacesMetadata, serializeWorkspacesMetadata, expectJsonObject,
      getField, lookupKey, mapExcept_parseRepoEntry]

theorem validateWorkspacesMetadata_version (resolve : String → String)
    (isTs : String → Bool) (m : WorkspacesMetadata)
    (h : validateWorkspacesMetadata resolve isTs m = true) : m.version = SCHEMA_VERSION := by
  unfold validateWorkspacesMetadata at h
  rw [Bool.and_eq_true] at h
  exact beq_iff_eq.mp h.1

theorem readMetadata_serialize_of_valid (resolve : String → String) (isTs : String → Bool)
    (m : WorkspacesMetadata) (hvalid : validateWorkspacesMetadata resolve isTs m = true) :
    readMetadata resolve isTs (some (serializeWorkspacesMetadata m)) = Except.ok m := by
  have hv : m.version = SCHEMA_VERSION := validateWorkspacesMetadata_version _ _ _ hvalid
  have hmig : migrateWorkspacesMetadata (serializeWorkspacesMetadata m) =
      Except.ok (serializeWorkspacesMetadata m, false) := by
    simp [migrateWorkspacesMetadata, serializeWorkspacesMetadata, expectJsonObject,
      getField, lookupKey, hv]
  simp [readMetadata, hmig, parseWorkspacesMetadata_serialize, hvalid]

/-- C3: for every valid metadata value, `MetadataManager.write` stores its
serialization and `MetadataManager.read` on the written file returns a
value equal to the original. -/
theorem metadata_write_read_roundtrip (resolve : String → String) (isTs : String → Bool)
    (m : WorkspacesMetadata) (fs : Option Json)
    (hvalid : validateWorkspacesMetadata resolve isTs m = true)
    (hdict : wellFormedDictKeys m = true) :
    writeMetadata resolve isTs m fs = Except.ok (some (serializeWorkspacesMetadata m))
    ∧ readMetadata resolve isTs (some (serializeWorkspacesMetadata m)) = Except.ok m := by
  refine ⟨?_, readMetadata_serialize_of_valid resolve isTs m hvalid⟩
  simp [writeMetadata, hvalid]

/-- C3 witness: a concrete one-repo, one-workspace metadata value. -/
theorem metadata_write_read_roundtrip_witness :
    writeMetadata (fun s => s) (fun _ => true)
        ⟨1, [("/r/.git", ⟨"/r/.git", "/r", some "origin", "t1", "t2",
          [("feature/x", ⟨"feature/x", "/w/x", none, WorkspaceKind.standard,
            "main", [], "t1", "t2"⟩)]⟩)]⟩ none
      = Except.ok (some (serializeWorkspacesMetadata
          ⟨1, [("/r/.git", ⟨"/r/.git", "/r", some "origin", "t1", "t2",
            [("feature/x", ⟨"feature/x", "/w/x", none, WorkspaceKind.standard,
              "main", [], "t1", "t2"⟩)]⟩)]⟩))
    ∧ readMetadata (fun s => s) (fun _ => true)
        (some (serializeWorkspacesMetadata
          ⟨1, [("/r/.git", ⟨"/r/.git", "/r", some "origin", "t1", "t2",
            [("feature/x", ⟨"feature/x", "/w/x", none, WorkspaceKind.standard,
              "main", [], "t1", "t2"⟩)]⟩)]⟩))
      = Except.ok ⟨1, [("/r/.git", ⟨"/r/.git", "/r", some "origin", "t1", "t2",
          [("feature/x", ⟨"feature/x", "/w/x", none, WorkspaceKind.standard,
            "main", [], "t1", "t2"⟩)]⟩)]⟩ :=
  metadata_write_read_roundtrip (fun s => s) (fun _ => true)
    ⟨1, [("/r/.git", ⟨"/r/.git", "/r", some "origin", "t1", "t2",
      [("feature/x", ⟨"feature/x", "/w/x", none, WorkspaceKind.standard,
        "main", [], "t1", "t2"⟩)]⟩)]⟩ none (by decide) (by decide)

theorem readMetadata_validates (resolve : String → String) (isTs : String → Bool)
    (fs : Option Json) (m : WorkspacesMetadata)
    (h : readMetadata resolve isTs fs = Except.ok m) :
    validateWorkspacesMetadata resolve isTs m = true := by
  cases fs with
  | none =>
    simp [readMetadata] at h
    subst h
    rfl
  | some raw =>
    simp only [readMetadata] at h
    split at h
    · cases h
    · split at h
      · cases h
      · split at h
        · cases h
          assumption
        · cases h

theorem lookupKey_all {α : Type} (p : String × α → Bool) (l : List (String × α))
    (k : String) (v : α) (hall : l.all p = true) (hfind : lookupKey l k = some v) :
    p (k, v) = true := by
  induction l with
  | nil => cases hfind
  | cons kv rest ih =>
    obtain ⟨k0, v0⟩ := kv
    rw [List.all_cons, Bool.and_eq_true] at hall
    unfold lookupKey at hfind
    by_cases hk : k0 = k
    · rw [if_pos hk] at hfind
      injection hfind with hv
      subst hk
      subst hv
      exact hall.1
    · rw [if_neg hk] at hfind
      exact ih hall.2 hfind

theorem all_setKey {α : Type} (p : String × α → Bool) (l : List (String × α))
    (k : String) (v : α) (hall : l.all p = true) (hv : p (k, v) = true) :
    (setKey l k v).all p = true := by
  induction l with
  | nil => simp [setKey, hv]
  | cons kv rest ih =>
    obtain ⟨k0, v0⟩ := kv
    rw [List.all_cons, Bool.and_eq_true] at hall
    unfold setKey
    by_cases hk : k0 = k
    · rw [if_pos hk, List.all_cons, Bool.and_eq_true]
      exact ⟨by rw [hk]; exact hv, hall.2⟩
    · rw [if_neg hk, List.all_cons, Bool.and_eq_true]
      exact ⟨hall.1, ih hall.2⟩

theorem lookupKey_setKey_self {α : Type} (l : List (String × α)) (k : String) (v : α) :
    lookupKey (setKey l k v) k = some v := by
  induction l with
  | nil => simp [setKey, lookupKey]
  | cons kv rest ih =>
    obtain ⟨k0, v0⟩ := kv
    by_cases hk : k0 = k <;> simp [setKey, lookupKey, hk, ih]

theorem setKey_idem {α : Type} (l : List (String × α)) (k : String) (v : α) :
    setKey (setKey l k v) k v = setKey l k v := by
  induction l with
  | nil => simp [setKey]
  | cons kv rest ih =>
    obtain ⟨k0, v0⟩ := kv
    by_cases hk : k0 = k <;> simp [setKey, hk, ih]

theorem validRepoEntry_track (resolve : String → String) (isTs : String → Bool)
    (g r : String) (d : Option String) (now ta : String)
    (ws : List (String × WorkspaceMetadata))
    (habsg : isAbsolutePath g = true) (hres : resolve g = g)
    (habsr : isAbsolutePath r = true) (hts : isTs now = true) (hta : isTs ta = true)
    (hws1 : allDistinct (ws.map (fun wv => wv.2.worktree_path)) = true)
    (hws2 : ws.all (validWorkspaceEntry isTs) = true) :
    validRepoEntry resolve isTs (g, ⟨g, r, d, ta, now, ws⟩) = true := by
  unfold validRepoEntry
  simp [habsg, hres, habsr, hts, hta, hws1, hws2]

/-- C9: `ensure_repo_tracked` is idempotent for a fixed `now()` and fixed
repository resolution: a second call leaves the same persisted metadata as
the first; when the repository is already tracked, its `tracked_at`
timestamp and workspaces map are preserved and only `updated_at` is reset
to `now()`; when new, it is inserted with `tracked_at = updated_at =
now()`; the result is persisted and readable. -/
theorem ensure_repo_tracked_idempotent (resolve : String → String) (isTs : String → Bool)
    (g r : String) (d : Option String) (now : String) (fs : Option Json)
    (m : WorkspacesMetadata)
    (hread : readMetadata resolve isTs fs = Except.ok m)
    (habsg : isAbsolutePath g = true) (hres : resolve g = g)
    (habsr : isAbsolutePath r = true) (hts : isTs now = true) :
    ∃ fs1, ensureRepoTracked resolve isTs (some g) (some r) d now fs = Except.ok fs1
      ∧ ensureRepoTracked resolve isTs (some g) (some r) d now fs1 = Except.ok fs1
      ∧ ∃ m1, readMetadata resolve isTs fs1 = Except.ok m1
        ∧ m1.version = m.version
        ∧ (∀ e, lookupKey m.repos g = some e →
            lookupKey m1.repos g = some ⟨g, r, d, e.tracked_at, now, e.workspaces⟩)
        ∧ (lookupKey m.repos g = none →
            lookupKey m1.repos g = some ⟨g, r, d, now, now, []⟩) := by
  have hvalm := readMetadata_validates resolve isTs fs m hread
  have hvrepos : m.repos.all (validRepoEntry resolve isTs) = true := by
    unfold validateWorkspacesMetadata at hvalm
    rw [Bool.and_eq_true] at hvalm
    exact hvalm.2
  have hver : m.version = SCHEMA_VERSION := validateWorkspacesMetadata_version _ _ _ hvalm
  cases hlook : lookupKey m.repos g with
  | some e =>
    have hre : validRepoEntry resolve isTs (g, e) = true :=
      lookupKey_all _ _ _ _ hvrepos hlook
    have hta : isTs e.tracked_at = true := by
      unfold validRepoEntry at hre
      simp only [Bool.and_eq_true] at hre
      tauto
    have hws1 : allDistinct (e.workspaces.map (fun wv => wv.2.worktree_path)) = true := by
      unfold validRepoEntry at hre
      simp only [Bool.and_eq_true] at hre
      tauto
    have hws2 : e.workspaces.all (validWorkspaceEntry isTs) = true := by
      unfold validRepoEntry at hre
      simp only [Bool.and_eq_true] at hre
      tauto
    have hvR : validRepoEntry resolve isTs
        (g, ⟨g, r, d, e.tracked_at, now, e.workspaces⟩) = true :=
      validRepoEntry_track resolve isTs g r d now e.tracked_at e.workspaces
        habsg hres habsr hts hta hws1 hws2
    have hvalm1 : validateWorkspacesMetadata resolve isTs
        ⟨m.version, setKey m.repos g ⟨g, r, d, e.tracked_at, now, e.workspaces⟩⟩ = true := by
      unfold validateWorkspacesMetadata
      rw [Bool.and_eq_true]
      exact ⟨by simp [hver, SCHEMA_VERSION], all_setKey _ _ _ _ hvrepos hvR⟩
    have hfirst : ensureRepoTracked resolve isTs (some g) (some r) d now fs
        = Except.ok (some (serializeWorkspacesMetadata
            ⟨m.version, setKey m.repos g ⟨g, r, d, e.tracked_at, now, e.workspaces⟩⟩)) := by
      unfold ensureRepoTracked
      rw [hread]
      simp [hlook, writeMetadata, hvalm1]
    have hread1 : readMetadata resolve isTs (some (serializeWorkspacesMetadata
        ⟨m.version, setKey m.repos g ⟨g, r, d, e.tracked_at, now, e.workspaces⟩⟩))
        = Except.ok ⟨m.version, setKey m.repos g ⟨g, r, d, e.tracked_at, now, e.workspaces⟩⟩ :=
      readMetadata_serialize_of_valid resolve isTs _ hvalm1
    have hlook1 : lookupKey (setKey m.repos g ⟨g, r, d, e.tracked_at, now, e.workspaces⟩) g
        = some ⟨g, r, d, e.tracked_at, now, e.workspaces⟩ :=
      lookupKey_setKey_self _ _ _
    have hsecond : ensureRepoTracked resolve isTs (some g) (some r) d now
        (some (serializeWorkspacesMetadata
          ⟨m.version, setKey m.repos g ⟨g, r, d, e.tracked_at, now, e.workspaces⟩⟩))
        = Except.ok (some (serializeWorkspacesMetadata
            ⟨m.version, setKey m.repos g ⟨g, r, d, e.tracked_at, now, e.workspaces⟩⟩)) := by
      unfold ensureRepoTracked
      rw [hread1]
      simp [hlook1, writeMetadata, setKey_idem, hvalm1]
    refine ⟨_, hfirst, hsecond, _, hread1, rfl, ?_, ?_⟩
    · intro e2 he2
      injection he2 with he2
      subst he2
      exact hlook1
    · intro hnone
      cases hnone
  | none =>
    have hvR : validRepoEntry resolve isTs (g, ⟨g, r, d, now, now, []⟩) = true :=
      validRepoEntry_track resolve isTs g r d now now [] habsg hres habsr hts hts rfl rfl
    have hvalm1 : validateWorkspacesMetadata resolve isTs
        ⟨m.version, setKey m.repos g ⟨g, r, d, now, now, []⟩⟩ = true := by
      unfold validateWorkspacesMetadata
      rw [Bool.and_eq_true]
      exact ⟨by simp [hver, SCHEMA_VERSION], all_setKey _ _ _ _ hvrepos hvR⟩
    have hfirst : ensureRepoTracked resolve isTs (some g) (some r) d now fs
        = Except.ok (some (serializeWorkspacesMetadata
            ⟨m.version, setKey m.repos g ⟨g, r, d, now, now, []⟩⟩)) := by
      unfold ensureRepoTracked
      rw [hread]
      simp [hlook, writeMetadata, hvalm1]
    have hread1 : readMetadata resolve isTs (some (serializeWorkspacesMetadata
        ⟨m.version, setKey m.repos g ⟨g, r, d, now, now, []⟩⟩))
        = Except.ok ⟨m.version, setKey m.repos g ⟨g, r, d, now, now, []⟩⟩ :=
      readMetadata_serialize_of_valid resolve isTs _ hvalm1
    have hlook1 : lookupKey (setKey m.repos g ⟨g, r, d, now, now, []⟩) g
        = some ⟨g, r, d, now, now, []⟩ := lookupKey_setKey_self _ _ _
    have hsecond : ensureRepoTracked resolve isTs (some g) (some r) d now
        (some (serializeWorkspacesMetadata
          ⟨m.version, setKey m.repos g ⟨g, r, d, now, now, []⟩⟩))
        = Except.ok (some (serializeWorkspacesMetadata
            ⟨m.version, setKey m.repos g ⟨g, r, d, now, now, []⟩⟩)) := by
      unfold ensureRepoTracked
      rw [hread1]
      simp [hlook1, writeMetadata, setKey_idem, hvalm1]
    refine ⟨_, hfirst, hsecond, _, hread1, rfl, ?_, ?_⟩
    · intro e2 he2
      cases he2
    · intro _
      exact hlook1

/-- C9 witness: tracking a fresh repository in an absent metadata file,
twice, with a fixed clock and fixed resolution. -/
theorem ensure_repo_tracked_idempotent_witness :
    ensureRepoTracked (fun s => s) (fun _ => true) (some "/repo/.git") (some "/repo")
        (some "origin") "2024-05-01T00:00:00Z"
        (some (serializeWorkspacesMetadata ⟨1, [("/repo/.git",
          ⟨"/repo/.git", "/repo", some "origin", "2024-05-01T00:00:00Z",
           "2024-05-01T00:00:00Z", []⟩)]⟩))
      = Except.ok (some (serializeWorkspacesMetadata ⟨1, [("/repo/.git",
          ⟨"/repo/.git", "/repo", some "origin", "2024-05-01T00:00:00Z",
           "2024-05-01T00:00:00Z", []⟩)]⟩)) := by
  obtain ⟨fs1, h1, h2, -⟩ := ensure_repo_tracked_idempotent (fun s => s) (fun _ => true)
    "/repo/.git" "/repo" (some "origin") "2024-05-01T00:00:00Z" none ⟨1, []⟩
    rfl (by decide) rfl (by decide) rfl
  have h0 : ensureRepoTracked (fun s => s) (fun _ => true) (some "/repo/.git") (some "/repo")
      (some "origin") "2024-05-01T00:00:00Z" none
      = Except.ok (some (serializeWorkspacesMetadata ⟨1, [("/repo/.git",
          ⟨"/repo/.git", "/repo", some "origin", "2024-05-01T00:00:00Z",
           "2024-05-01T00:00:00Z", []⟩)]⟩)) := by rfl
  have hfs : fs1 = some (serializeWorkspacesMetadata ⟨1, [("/repo/.git",
      ⟨"/repo/.git", "/repo", some "origin", "2024-05-01T00:00:00Z",
       "2024-05-01T00:00:00Z", []⟩)]⟩) :=
    (Except.ok.inj (h0.symm.trans h1)).symm
  rw [hfs] at h2
  exact h2

/-- C7: with a fixed injected clock and resolver, for one repository key a
first call stores the resolved statuses; a second call whose clock reading
is within `ttl_seconds` of the first returns the same stored statuses
without invoking the resolver (so across the two calls the resolver ran
exactly once), while a call at or past the TTL invokes the resolver again
and overwrites the cached entry with the new result and fetch time. -/
theorem remote_status_cache_ttl {σ : Type} (cache : RemoteStatusCache σ)
    (key : String) (t0 t1 t2 : Int) (r0 r1 r2 : σ)
    (hmiss : lookupKey cache.entries key = none)
    (hfresh : t1 - t0 < cache.ttl_seconds)
    (hstale : ¬ t2 - t0 < cache.ttl_seconds) :
    statusesForRepo cache key t0 r0 =
      (r0, ⟨cache.ttl_seconds, setKey cache.entries key (t0, r0)⟩, true)
    ∧ statusesForRepo ⟨cache.ttl_seconds, setKey cache.entries key (t0, r0)⟩ key t1 r1 =
      (r0, ⟨cache.ttl_seconds, setKey cache.entries key (t0, r0)⟩, false)
    ∧ statusesForRepo ⟨cache.ttl_seconds, setKey cache.entries key (t0, r0)⟩ key t2 r2 =
      (r2, ⟨cache.ttl_seconds, setKey (setKey cache.entries key (t0, r0)) key (t2, r2)⟩, true)
    ∧ lookupKey (setKey (setKey cache.entries key (t0, r0)) key (t2, r2)) key
      = some (t2, r2) := by
  refine ⟨?_, ?_, ?_, ?_⟩
  · simp [statusesForRepo, hmiss]
  · simp [statusesForRepo, lookupKey_setKey_self, hfresh]
  · simp [statusesForRepo, lookupKey_setKey_self, hstale]
  · exact lookupKey_setKey_self _ _ _

/-- C7 witness: a 60-second TTL, calls at times 0, 59 and 60. -/
theorem remote_status_cache_ttl_witness :
    statusesForRepo (⟨60, []⟩ : RemoteStatusCache Nat) "/r/.git" 0 1 =
      (1, ⟨60, [("/r/.git", (0, 1))]⟩, true)
    ∧ statusesForRepo (⟨60, [("/r/.git", (0, 1))]⟩ : RemoteStatusCache Nat) "/r/.git" 59 2 =
      (1, ⟨60, [("/r/.git", (0, 1))]⟩, false)
    ∧ statusesForRepo (⟨60, [("/r/.git", (0, 1))]⟩ : RemoteStatusCache Nat) "/r/.git" 60 3 =
      (3, ⟨60, [("/r/.git", (60, 3))]⟩, true)
    ∧ lookupKey [("/r/.git", ((60 : Int), (3 : Nat)))] "/r/.git" = some (60, 3) :=
  remote_status_cache_ttl (⟨60, []⟩ : RemoteStatusCache Nat) "/r/.git" 0 59 60 1 2 3
    rfl (by decide) (by decide)

/-- C10: a repository whose workspaces map is empty renders as the header
line followed by the line `(no tracked workspaces)` instead of an empty
table. -/
theorem render_empty_workspaces_line (repo : RepoMetadata)
    (remote_statuses : List (String × RemoteAheadBehindStatus))
    (pr_statuses : List (String × PullRequestStatus))
    (h : repo.workspaces = []) :
    renderWorkspaceTable (rowsForRepo repo remote_statuses pr_statuses) =
      "BRANCH  KIND  BASE  UPSTREAM  AHEAD  BEHIND  PR  WORKTREE\n(no tracked workspaces)" := by
  have hrows : rowsForRepo repo remote_statuses pr_statuses = [] := by
    unfold rowsForRepo
    rw [h]
    rfl
  rw [hrows]
  rfl

/-- C10 witness: a concrete tracked repository with no workspaces. -/
theorem render_empty_workspaces_line_witness :
    renderWorkspaceTable (rowsForRepo ⟨"/r/.git", "/r", none, "t1", "t2", []⟩ [] []) =
      "BRANCH  KIND  BASE  UPSTREAM  AHEAD  BEHIND  PR  WORKTREE\n(no tracked workspaces)" :=
  render_empty_workspaces_line ⟨"/r/.git", "/r", none, "t1", "t2", []⟩ [] [] rfl

theorem maxBySnd_mem (best : String × Nat) (l : List (String × Nat)) :
    maxBySnd best l ∈ best :: l := by
  induction l generalizing best with
  | nil => simp [maxBySnd]
  | cons x xs ih =>
    simp only [maxBySnd]
    by_cases h : best.2 < x.2
    · rw [if_pos h]
      have h2 := ih x
      simp only [List.mem_cons] at h2 ⊢
      tauto
    · rw [if_neg h]
      have h2 := ih best
      simp only [List.mem_cons] at h2 ⊢
      tauto

theorem maxBySnd_ge (best : String × Nat) (l : List (String × Nat)) :
    ∀ x ∈ best :: l, x.2 ≤ (maxBySnd best l).2 := by
  induction l generalizing best with
  | nil =>
    intro x hx
    simp only [List.mem_cons, List.not_mem_nil, or_false] at hx
    subst hx
    simp [maxBySnd]
  | cons y ys ih =>
    intro x hx
    simp only [maxBySnd]
    simp only [List.mem_cons] at hx
    have hbest : best.2 ≤ (if best.2 < y.2 then y else best).2 := by
      by_cases h : best.2 < y.2
      · rw [if_pos h]
        exact Nat.le_of_lt h
      · rw [if_neg h]
    have hy : y.2 ≤ (if best.2 < y.2 then y else best).2 := by
      by_cases h : best.2 < y.2
      · rw [if_pos h]
      · rw [if_neg h]
        exact Nat.le_of_not_lt h
    have hrec := ih (if best.2 < y.2 then y else best)
    have htop : (if best.2 < y.2 then y else best).2
        ≤ (maxBySnd (if best.2 < y.2 then y else best) ys).2 :=
      hrec _ (List.mem_cons_self _ _)
    rcases hx with hx1 | hx1 | hx1
    · subst hx1
      exact le_trans hbest htop
    · subst hx1
      exact le_trans hy htop
    · exact hrec x (List.mem_cons_of_mem _ hx1)

theorem foldl_dedup_of_nodup (l : List String) :
    ∀ acc : List String, (acc ++ l).Nodup →
      l.foldl (fun acc c => if c ∈ acc then acc else acc ++ [c]) acc = acc ++ l := by
  induction l with
  | nil => intro acc _; simp
  | cons c cs ih =>
    intro acc h
    have hc : c ∉ acc := by
      rw [List.nodup_append] at h
      intro hmem
      exact h.2.2 hmem (List.mem_cons_self c cs)
    have hstep : (acc ++ [c]) ++ cs = acc ++ c :: cs := by simp
    rw [List.foldl_cons, if_neg hc, ih (acc ++ [c]) (by rw [hstep]; exact h), hstep]

theorem dedupFirst_of_nodup (l : List String) (h : l.Nodup) : dedupFirst l = l := by
  unfold dedupFirst
  have := foldl_dedup_of_nodup l [] (by simpa)
  simpa using this

theorem filter_eq_singleton (l : List String) (p : String) (pred : String → Bool)
    (hnd : l.Nodup) (hp : p ∈ l) (hpred : pred p = true)
    (hothers : ∀ q ∈ l, q ≠ p → pred q = false) :
    l.filter pred = [p] := by
  induction l with
  | nil => cases hp
  | cons x xs ih =>
    rw [List.nodup_cons] at hnd
    rcases List.mem_cons.mp hp with rfl | hpx
    · have hxs : xs.filter pred = [] := by
        rw [List.filter_eq_nil_iff]
        intro q hq
        have hqp : q ≠ p := fun heq => hnd.1 (heq ▸ hq)
        rw [hothers q (List.mem_cons_of_mem p hq) hqp]
        exact Bool.false_ne_true
      rw [List.filter_cons_of_pos hpred, hxs]
    · have hxp : x ≠ p := by
        intro heq
        exact hnd.1 (heq ▸ hpx)
      have hxf : pred x = false := hothers x (List.mem_cons_self x xs) hxp
      rw [List.filter_cons_of_neg (by rw [hxf]; exact Bool.false_ne_true)]
      exact ih hnd.2 hpx (fun q hq hqp => hothers q (List.mem_cons_of_mem x hq) hqp)

theorem heuristicTargetParent_cons (existsAt : String → String → Bool)
    (changed : List String) (parents : List String) (s : String × Nat)
    (ss : List (String × Nat))
    (hne : changed.isEmpty = false)
    (hsc : heuristicScores existsAt changed parents = s :: ss) :
    heuristicTargetParent existsAt changed parents =
      (if (maxBySnd s ss).2 == 0
          || decide (1 < ((s :: ss).filter (fun q => q.2 == (maxBySnd s ss).2)).length)
          || decide (5 * (maxBySnd s ss).2 < 3 * changed.length)
       then Except.error "absorb-target-uncertain"
       else Except.ok (maxBySnd s ss).1) := by
  unfold heuristicTargetParent
  rw [hne, hsc]
  rfl

/-- C6: for a commit with at least two distinct octopus parents, the
heuristic returns the parent with the strictly highest count of the
commit's changed files existing at that parent's tip provided that count
is at least 0.6 of the total; and it fails with `absorb-target-uncertain`
whenever the changed-file set is empty, the top count is shared by more
than one parent, or the best count is below 0.6 of the total. -/
theorem absorb_heuristic_target (existsAt : String → String → Bool)
    (changed : List String) (parents : List String)
    (hnd : parents.Nodup) (hp2 : 2 ≤ parents.length) :
    (changed = [] →
      heuristicTargetParent existsAt changed parents = Except.error "absorb-target-uncertain")
    ∧ (∀ p, p ∈ parents →
        (∀ q ∈ parents, q ≠ p → scoreFor existsAt changed q < scoreFor existsAt changed p) →
        3 * changed.length ≤ 5 * scoreFor existsAt changed p →
        changed ≠ [] →
        heuristicTargetParent existsAt changed parents = Except.ok p)
    ∧ (changed ≠ [] →
        (1 < ((heuristicScores existsAt changed parents).filter
            (fun q => q.2 == (heuristicBest existsAt changed parents).2)).length
          ∨ 5 * (heuristicBest existsAt changed parents).2 < 3 * changed.length) →
        heuristicTargetParent existsAt changed parents
          = Except.error "absorb-target-uncertain") := by
  cases parents with
  | nil => simp at hp2
  | cons p0 ps =>
    have hscores : heuristicScores existsAt changed (p0 :: ps)
        = (p0, scoreFor existsAt changed p0)
          :: ps.map (fun p => (p, scoreFor existsAt changed p)) := by
      unfold heuristicScores
      rw [dedupFirst_of_nodup _ hnd]
      simp
    have hscores2 : heuristicScores existsAt changed (p0 :: ps)
        = (p0 :: ps).map (fun p => (p, scoreFor existsAt changed p)) := by
      rw [hscores]
      simp
    have hbestdef : heuristicBest existsAt changed (p0 :: ps)
        = maxBySnd (p0, scoreFor existsAt changed p0)
            (ps.map (fun p => (p, scoreFor existsAt changed p))) := by
      unfold heuristicBest
      rw [hscores]
    have hbestmem : heuristicBest existsAt changed (p0 :: ps)
        ∈ heuristicScores existsAt changed (p0 :: ps) := by
      rw [hbestdef, hscores]
      exact maxBySnd_mem _ _
    have hbestge : ∀ x ∈ heuristicScores existsAt changed (p0 :: ps),
        x.2 ≤ (heuristicBest existsAt changed (p0 :: ps)).2 := by
      rw [hbestdef, hscores]
      exact maxBySnd_ge _ _
    refine ⟨?_, ?_, ?_⟩
    · intro hch
      subst hch
      simp [heuristicTargetParent]
    · intro p hmem hstrict hconf hne
      have hlen : 0 < changed.length := List.length_pos.mpr hne
      have hisEmpty : changed.isEmpty = false := by
        cases changed
        · exact absurd rfl hne
        · rfl
      have hpscore : (p, scoreFor existsAt changed p)
          ∈ heuristicScores existsAt changed (p0 :: ps) := by
        rw [hscores2]
        exact List.mem_map_of_mem _ hmem
      have hple : scoreFor existsAt changed p
          ≤ (heuristicBest existsAt changed (p0 :: ps)).2 :=
        hbestge _ hpscore
      have hbesteq : heuristicBest existsAt changed (p0 :: ps)
          = (p, scoreFor existsAt changed p) := by
        have hmm := hbestmem
        rw [hscores2] at hmm
        obtain ⟨q, hq, hbq⟩ := List.mem_map.mp hmm
        by_cases hqp : q = p
        · rw [hqp] at hbq
          exact hbq.symm
        · have hlt : scoreFor existsAt changed q < scoreFor existsAt changed p :=
            hstrict q hq hqp
          have : (heuristicBest existsAt changed (p0 :: ps)).2
              = scoreFor existsAt changed q := by rw [← hbq]
          omega
      have hsp1 : 0 < scoreFor existsAt changed p := by omega
      have hfilter : (heuristicScores existsAt changed (p0 :: ps)).filter
          (fun q => q.2 == scoreFor existsAt changed p)
          = [(p, scoreFor existsAt changed p)] := by
        rw [hscores2, List.filter_map]
        have hfl : (p0 :: ps).filter
            (fun q => scoreFor existsAt changed q == scoreFor existsAt changed p) = [p] := by
          refine filter_eq_singleton _ _ _ hnd hmem (by simp) ?_
          intro q hq hqp
          have hlt := hstrict q hq hqp
          simp only [beq_eq_false_iff_ne, ne_eq]
          omega
        have hcomp : ((fun q : String × Nat => q.2 == scoreFor existsAt changed p)
            ∘ (fun p => (p, scoreFor existsAt changed p)))
            = fun q => scoreFor existsAt changed q == scoreFor existsAt changed p := rfl
        rw [hcomp, hfl]
        rfl
      have hcons := heuristicTargetParent_cons existsAt changed (p0 :: ps) _ _ hisEmpty hscores
      rw [hcons, ← hscores, ← hbestdef, hbesteq]
      have hb1 : (((p, scoreFor existsAt changed p) : String × Nat).2 == 0) = false := by
        simp only [beq_eq_false_iff_ne, ne_eq]
        omega
      have hb3 : decide (5 * ((p, scoreFor existsAt changed p) : String × Nat).2
          < 3 * changed.length) = false := by
        simp only [decide_eq_false_iff_not, not_lt]
        omega
      rw [hb1, hfilter, hb3]
      simp
    · intro hne hcond
      have hisEmpty : changed.isEmpty = false := by
        cases changed
        · exact absurd rfl hne
        · rfl
      have hcons := heuristicTargetParent_cons existsAt changed (p0 :: ps) _ _ hisEmpty hscores
      rw [hcons, ← hscores, ← hbestdef]
      rcases hcond with h | h
      · have hb2 : decide (1 < ((heuristicScores existsAt changed (p0 :: ps)).filter
            (fun q => q.2 == (heuristicBest existsAt changed (p0 :: ps)).2)).length) = true :=
          decide_eq_true h
        rw [hb2]
        simp
      · have hb3 : decide (5 * (heuristicBest existsAt changed (p0 :: ps)).2
            < 3 * changed.length) = true := decide_eq_true h
        rw [hb3]
        simp

/-- C6 witness: two parents where every changed file exists only at the
first; confidence is 2/2. -/
theorem absorb_heuristic_target_witness :
    heuristicTargetParent (fun parent _ => parent == "main") ["a", "b"]
      ["main", "release"] = Except.ok "main" :=
  (absorb_heuristic_target (fun parent _ => parent == "main") ["a", "b"]
      ["main", "release"] (by decide) (by decide)).2.1 "main"
    (by decide) (by decide) (by decide) (by decide)

theorem string_append_left_cancel (s t1 t2 : String) (h : s ++ t1 = s ++ t2) : t1 = t2 := by
  have hd : s.data ++ t1.data = s.data ++ t2.data := by
    rw [← String.data_append, ← String.data_append, h]
  have h2 := List.append_cancel_left hd
  cases t1
  cases t2
  congr

set_option maxRecDepth 4000

theorem sha256hex_test_vector_abc :
    sha256hex "abc" = "ba7816bf8f01cfea414140de5dae2223b00361a396177a9cb410ff61f20015ad" := by
  decide

theorem sha256hex_test_vector_empty :
    sha256hex "" = "e3b0c44298fc1c149afbf4c8996fb92427ae41e4649b934ca495991b7852b855" := by
  decide

/-- C8 counterexample: the branches "aAAaAAAaaAaAaaaaaaaa" and
"AAaaaaaAAaaaAaaaaaaa" are distinct, sanitize to the same directory name,
and share the first six hex digits (b8de98) of their sha256 digests, so
`derive_workspace_path` gives both siblings the same disambiguation suffix
and their derived paths coincide — contradicting the claim that the two
siblings' derived paths differ. -/
theorem workspace_path_collision_counterexample :
    deriveBranchDir "aAAaAAAaaAaAaaaaaaaa" = deriveBranchDir "AAaaaaaAAaaaAaaaaaaa"
    ∧ "aAAaAAAaaAaAaaaaaaaa" ≠ "AAaaaaaAAaaaAaaaaaaa"
    ∧ deriveWorkspacePath (some "/xdg") "/home/u" (fun s => s) "/r/.git"
        "aAAaAAAaaAaAaaaaaaaa" ["AAaaaaaAAaaaAaaaaaaa"]
      = deriveWorkspacePath (some "/xdg") "/home/u" (fun s => s) "/r/.git"
        "AAaaaaaAAaaaAaaaaaaa" ["aAAaAAAaaAaAaaaaaaaa"] := by
  refine ⟨by decide, by decide, ?_⟩
  decide

theorem hasSanitizedCollision_of_mem (branch sibling : String) (sibs : List String)
    (hmem : sibling ∈ sibs) (hne : sibling ≠ branch)
    (hsame : deriveBranchDir sibling = deriveBranchDir branch) :
    hasSanitizedCollision branch sibs = true := by
  unfold hasSanitizedCollision
  rw [List.any_eq_true]
  refine ⟨sibling, hmem, ?_⟩
  rw [if_neg hne]
  exact beq_iff_eq.mpr hsame

/-- C8 amended: the derived branch directory is the branch with every run
of characters outside `[A-Za-z0-9._-]` replaced by a dash, stripped of
leading and trailing dash, dot and underscore, lowercased, an empty result
becoming "workspace"; when the sibling set contains a different branch
with the same sanitized directory, `derive_workspace_path` appends a dash
plus the first six hex digits of sha256 of the original branch, and the
two siblings' derived paths differ whenever their six-digit prefixes
differ (unconditional difference fails: the 24-bit prefix collides for
some branch pairs). -/
theorem workspace_path_collision_suffix (xdg : Option String) (home : String)
    (resolve : String → String) (gitDir b bp : String) (sibs sibsp : List String)
    (hmem : bp ∈ sibs) (hmemp : b ∈ sibsp) (hne : bp ≠ b)
    (hsame : deriveBranchDir bp = deriveBranchDir b)
    (hpref : strTake (sha256hex b) 6 ≠ strTake (sha256hex bp) 6) :
    deriveBranchDir b = (if String.mk (lowerChars (stripChars isBranchStripChar
        (subRunsAux isBranchAllowedChar b.data false))) = "" then "workspace"
      else String.mk (lowerChars (stripChars isBranchStripChar
        (subRunsAux isBranchAllowedChar b.data false))))
    ∧ deriveWorkspacePath xdg home resolve gitDir b sibs
      = workspaceRootDir xdg home ++ "/" ++ deriveRepoId resolve gitDir ++ "/"
        ++ (deriveBranchDir b ++ "-" ++ strTake (sha256hex b) 6)
    ∧ deriveWorkspacePath xdg home resolve gitDir bp sibsp
      = workspaceRootDir xdg home ++ "/" ++ deriveRepoId resolve gitDir ++ "/"
        ++ (deriveBranchDir bp ++ "-" ++ strTake (sha256hex bp) 6)
    ∧ deriveWorkspacePath xdg home resolve gitDir b sibs
      ≠ deriveWorkspacePath xdg home resolve gitDir bp sibsp := by
  have hcoll : hasSanitizedCollision b sibs = true :=
    hasSanitizedCollision_of_mem b bp sibs hmem hne hsame
  have hcollp : hasSanitizedCollision bp sibsp = true :=
    hasSanitizedCollision_of_mem bp b sibsp hmemp (fun h => hne h.symm) hsame.symm
  have h1 : deriveWorkspacePath xdg home resolve gitDir b sibs
      = workspaceRootDir xdg home ++ "/" ++ deriveRepoId resolve gitDir ++ "/"
        ++ (deriveBranchDir b ++ "-" ++ strTake (sha256hex b) 6) := by
    simp [deriveWorkspacePath, hcoll]
  have h2 : deriveWorkspacePath xdg home resolve gitDir bp sibsp
      = workspaceRootDir xdg home ++ "/" ++ deriveRepoId resolve gitDir ++ "/"
        ++ (deriveBranchDir bp ++ "-" ++ strTake (sha256hex bp) 6) := by
    simp [deriveWorkspacePath, hcollp]
  refine ⟨rfl, h1, h2, ?_⟩
  intro heq
  rw [h1, h2] at heq
  have hc1 := string_append_left_cancel _ _ _ heq
  rw [hsame] at hc1
  have hc2 := string_append_left_cancel _ _ _ hc1
  exact hpref hc2

/-- C8 amended witness: the branches "a!b" and "a?b" share the sanitized
directory "a-b" but have different sha256 six-digit prefixes, so both get
a suffix and their derived paths differ. -/
theorem workspace_path_collision_suffix_witness :
    deriveWorkspacePath (some "/x") "/h" (fun s => s) "/r/.git" "a!b" ["a?b"]
      = workspaceRootDir (some "/x") "/h" ++ "/" ++ deriveRepoId (fun s => s) "/r/.git"
        ++ "/" ++ (deriveBranchDir "a!b" ++ "-" ++ strTake (sha256hex "a!b") 6)
    ∧ deriveWorkspacePath (some "/x") "/h" (fun s => s) "/r/.git" "a?b" ["a!b"]
      = workspaceRootDir (some "/x") "/h" ++ "/" ++ deriveRepoId (fun s => s) "/r/.git"
        ++ "/" ++ (deriveBranchDir "a?b" ++ "-" ++ strTake (sha256hex "a?b") 6)
    ∧ deriveWorkspacePath (some "/x") "/h" (fun s => s) "/r/.git" "a!b" ["a?b"]
      ≠ deriveWorkspacePath (some "/x") "/h" (fun s => s) "/r/.git" "a?b" ["a!b"] := by
  have h := workspace_path_collision_suffix (some "/x") "/h" (fun s => s) "/r/.git"
    "a!b" "a?b" ["a?b"] ["a!b"] (by decide) (by decide) (by decide) (by decide) (by decide)
  exact ⟨h.2.1, h.2.2.1, h.2.2.2⟩
